import Mathlib

/-!
Verification of the PDF-thumbnail ingestion pipeline (src/dynamo.py).

The embedding models the Lambda handler and its helpers as pure Lean
functions over an explicit world state.  External effects are modelled as
follows:

* Strings model byte strings: percent-decoding (urllib.parse.unquote_plus)
  is modelled byte-wise, exact for single-byte text; str.lower is modelled
  on ASCII letters, matching Python on that range.
* The blob store, the local /tmp filesystem and the metadata table live in
  a `World` record; put operations cons onto history lists (newest first).
* Fallible external calls (s3 download, fitz.open, s3 put_object, dynamodb
  put_item, os.remove) are driven by an `Env` oracle that says which call
  raises and with what message; `os.remove` attempts are indexed by how
  many removals were attempted so far (the `removeLog` ghost field).
* `uuid.uuid4()` is modelled as a fresh-identifier generator: the world
  carries a counter and each generated identifier is the counter value,
  which is bumped.  Freshness (never reused) is the property the model
  keeps.
* `datetime.now()` reads the world clock.
* A Python exception escaping the handler is modelled as `none`; a caught
  exception carries its message string.
-/

/-- Value of a hexadecimal digit, as in percent-decoding. -/
def hexVal (c : Char) : Option Nat :=
  if '0' ≤ c ∧ c ≤ '9' then some (c.toNat - '0'.toNat)
  else if 'a' ≤ c ∧ c ≤ 'f' then some (c.toNat - 'a'.toNat + 10)
  else if 'A' ≤ c ∧ c ≤ 'F' then some (c.toNat - 'A'.toNat + 10)
  else none

/-- Byte-wise model of urllib.parse.unquote_plus on a character list:
plus becomes space, a percent sign followed by two hex digits becomes the
decoded byte, and a percent sign that does not start a valid escape is
kept verbatim (as in CPython).  The structural fuel argument bounds the
number of processed characters so that the definition computes by plain
recursion; it is always called with the length of the list. -/
def unquoteBytesF : Nat → List Char → List Char
  | _, [] => []
  | 0, l => l
  | fuel + 1, '+' :: rest => ' ' :: unquoteBytesF fuel rest
  | fuel + 1, '%' :: h1 :: h2 :: rest2 =>
    match hexVal h1, hexVal h2 with
    | some a, some b => Char.ofNat (16 * a + b) :: unquoteBytesF fuel rest2
    | _, _ => '%' :: unquoteBytesF fuel (h1 :: h2 :: rest2)
  | fuel + 1, '%' :: rest => '%' :: unquoteBytesF fuel rest
  | fuel + 1, c :: rest => c :: unquoteBytesF fuel rest

/-- Model of urllib.parse.unquote_plus. -/
def unquotePlus (s : String) : String := ⟨unquoteBytesF s.data.length s.data⟩

/-- Model of str.lower (ASCII range). -/
def pyLower (s : String) : String := ⟨s.data.map Char.toLower⟩

/-- Model of str.endswith: the second string is a suffix of the first. -/
def pyEndsWith (s t : String) : Bool := t.data.isSuffixOf s.data

/-- Model of str.startswith: the second string is a prefix of the first. -/
def pyStartsWith (s t : String) : Bool := t.data.isPrefixOf s.data

/-- Model of os.path.basename: the part after the last slash. -/
def basename (s : String) : String :=
  ⟨(s.data.reverse.takeWhile (fun c => c ≠ '/')).reverse⟩

/-- Index of the last dot in a character list, if any. -/
def lastDotAux : List Char → Nat → Option Nat → Option Nat
  | [], _, acc => acc
  | c :: rest, i, acc => lastDotAux rest (i + 1) (if c = '.' then some i else acc)

/-- Model of os.path.splitext applied to a basename, keeping the stem
(component zero).  As in CPython, the split happens at the last dot, and
names consisting only of leading dots before that dot are not split. -/
def splitextStem (b : String) : String :=
  match lastDotAux b.data 0 none with
  | none => b
  | some d =>
    if (b.data.take d).any (fun c => c ≠ '.') then ⟨b.data.take d⟩ else b

/-- Split of a character list at every occurrence of a separator, as in
str.split with a one-character separator. -/
def splitOnChar (c : Char) : List Char → List (List Char)
  | [] => [[]]
  | a :: rest =>
    if a = c then [] :: splitOnChar c rest
    else
      match splitOnChar c rest with
      | [] => [[a]]
      | h :: t => (a :: h) :: t

/-- Model of int() on a digit string: some value for a nonempty string
of decimal digits, none otherwise. -/
def charsToNat? (l : List Char) : Option Nat :=
  if l.isEmpty then none
  else if l.all Char.isDigit then
    some (l.foldl (fun acc c => 10 * acc + (c.toNat - '0'.toNat)) 0)
  else none

/-- Model of parsing THUMBNAIL_SIZE: both components of W x H as numbers,
none when the unpacking or the int conversion would raise. -/
def parseSize (s : String) : Option (Nat × Nat) :=
  match splitOnChar 'x' s.data with
  | [a, b] =>
    match charsToNat? a, charsToNat? b with
    | some x, some y => some (x, y)
    | _, _ => none
  | _ => none

/-- Model of PIL round_aspect for the width branch: floor or ceiling of n,
whichever brings the ratio closer to the aspect, at least one. -/
def roundAspectW (aspect : ℚ) (y : Nat) : Nat :=
  let n : ℚ := (y : ℚ) * aspect
  let f := (⌊n⌋).toNat
  let c := (⌈n⌉).toNat
  let pick := if |aspect - (f : ℚ) / (y : ℚ)| ≤ |aspect - (c : ℚ) / (y : ℚ)| then f else c
  max pick 1

/-- Model of PIL round_aspect for the height branch, with the zero guard
of the original key function. -/
def roundAspectH (aspect : ℚ) (x : Nat) : Nat :=
  let n : ℚ := (x : ℚ) / aspect
  let f := (⌊n⌋).toNat
  let c := (⌈n⌉).toNat
  let keyF : ℚ := if f = 0 then 0 else |aspect - (x : ℚ) / (f : ℚ)|
  let keyC : ℚ := if c = 0 then 0 else |aspect - (x : ℚ) / (c : ℚ)|
  let pick := if keyF ≤ keyC then f else c
  max pick 1

/-- Model of PIL Image.thumbnail size computation: no change when the
image already fits the bounding box, otherwise the constrained dimension
is clamped to the box and the other dimension is rounded to preserve the
aspect.  Exact rational arithmetic stands in for PIL float arithmetic. -/
def pilThumbnail (w h mw mh : Nat) : Nat × Nat :=
  if mw ≥ w ∧ mh ≥ h then (w, h)
  else
    let aspect : ℚ := (w : ℚ) / (h : ℚ)
    if (mw : ℚ) / (mh : ℚ) ≥ aspect then
      (roundAspectW aspect mh, mh)
    else
      (mw, roundAspectH aspect mw)

/-- One record of the batch wire shape, reduced to the fields the code
reads: bucket name, percent-encoded object key, object size. -/
structure S3Record where
  bucketName : String
  objectKey : String
  objectSize : Nat
deriving DecidableEq

/-- Ingestion event: optional Records list (legacy batch shape) and
optional detail record (single-event shape). -/
structure Event where
  records : Option (List S3Record)
  detail : Option S3Record
deriving DecidableEq

/-- Environment configuration read at process start. -/
structure Config where
  TARGET_BUCKET_NAME : Option String
  THUMBNAIL_PREFIX_ENV : String
  THUMBNAIL_SIZE : String
deriving DecidableEq

/-- Abstraction of a PDF document: its page count and the pixel size of
the 150 dpi pixmap of page zero. -/
structure PDFDoc where
  pageCount : Nat
  pix0w : Nat
  pix0h : Nat
deriving DecidableEq

/-- An object written to the blob store.  The PNG payload is abstracted
by the pixel dimensions of the encoded image. -/
structure StoredObject where
  bucket : String
  key : String
  contentType : String
  width : Nat
  height : Nat
deriving DecidableEq

/-- A metadata record as written by store_metadata. -/
structure MetaItem where
  file_id : Nat
  original_file : String
  thumbnail_path : String
  file_size : Nat
  file_type : String
  created_at : Nat
  updated_at : Nat
deriving DecidableEq

/-- World state threaded through a run: source objects, the local tmp
directory, the blob-store write history (newest first), the metadata
table history (newest first), the uuid counter, the clock, and two ghost
observation logs (paths passed to download_file and to os.remove). -/
structure World where
  s3docs : List (String × String × PDFDoc)
  tmp : List (String × PDFDoc)
  store : List StoredObject
  metadata : List MetaItem
  uuidCtr : Nat
  clock : Nat
  downloads : List String
  removeLog : List String
deriving DecidableEq

/-- Failure oracle for the external calls of one run.  An entry some m
means the corresponding call raises with message m.  Removal attempts are
indexed by the number of removals attempted so far. -/
structure Env where
  downloadErr : Option String
  openErr : Option String
  putObjectErr : Option String
  putItemErr : Option String
  removeErrs : List (Option String)
deriving DecidableEq

/-- Body of the invocation result: a plain message or the success
dictionary of message, file_id and thumbnail_path. -/
inductive Body where
  | msg (s : String)
  | success (message : String) (file_id : Nat) (thumbnail_path : String)
deriving DecidableEq

/-- Invocation result: statusCode and body. -/
structure HResult where
  statusCode : Nat
  body : Body
deriving DecidableEq

/-- Key extraction of should_process_event (lines 23 to 26): Records
takes precedence, element zero is read; none models the KeyError or
IndexError on a malformed event. -/
def rawKeyOf (e : Event) : Option String :=
  match e.records with
  | some rs => rs.head?.map (fun r => r.objectKey)
  | none => e.detail.map (fun r => r.objectKey)

/-- The classifier condition on the decoded key (line 29). -/
def processKeyCond (cfg : Config) (key : String) : Bool :=
  pyEndsWith (pyLower key) ".pdf" &&
    !(pyStartsWith (pyLower key) (pyLower cfg.THUMBNAIL_PREFIX_ENV))

/-- should_process_event (lines 20 to 29). -/
def should_process_event (cfg : Config) (e : Event) : Option Bool :=
  (rawKeyOf e).map (fun k => processKeyCond cfg (unquotePlus k))

/-- Event parsing of the handler (lines 60 to 68): bucket name, decoded
key, size.  Both shapes decode the key with unquote_plus (the utf-8
encoding argument on the Records branch is the default encoding). -/
def parseEvent (e : Event) : Option (String × String × Nat) :=
  match e.records with
  | none => e.detail.map (fun d => (d.bucketName, unquotePlus d.objectKey, d.objectSize))
  | some rs => rs.head?.map (fun r => (r.bucketName, unquotePlus r.objectKey, r.objectSize))

/-- The local download path (line 76). -/
def download_path_of (dk : String) : String := "/tmp/" ++ basename dk

/-- The derived thumbnail key (line 100). -/
def thumbnail_key_of (cfg : Config) (dk : String) : String :=
  cfg.THUMBNAIL_PREFIX_ENV ++ splitextStem (basename dk) ++ ".png"

/-- The destination bucket (line 101): the Python truthiness test means
an unset or empty TARGET_BUCKET_NAME falls back to the source bucket. -/
def target_bucket_of (cfg : Config) (srcBucket : String) : String :=
  match cfg.TARGET_BUCKET_NAME with
  | some t => if t = "" then srcBucket else t
  | none => srcBucket

/-- Lookup of a source object in the store. -/
def s3Lookup (w : World) (b k : String) : Option PDFDoc :=
  (w.s3docs.find? (fun t => t.1 == b && t.2.1 == k)).map (fun t => t.2.2)

/-- s3 download_file (line 77): raises on oracle failure or on a missing
object; on success writes the object bytes to the tmp path (replacing
any stale file) and logs the path. -/
def downloadFile (env : Env) (w : World) (b k path : String) : Except String World :=
  match env.downloadErr with
  | some m => Except.error m
  | none =>
    match s3Lookup w b k with
    | none => Except.error "NoSuchKey"
    | some d => Except.ok { w with tmp := (path, d) :: w.tmp.filter (fun p => p.1 != path), downloads := path :: w.downloads }

/-- fitz.open (line 80): raises on oracle failure or a missing file,
otherwise yields the document stored at the path. -/
def fitzOpen (env : Env) (w : World) (path : String) : Except String PDFDoc :=
  match env.openErr with
  | some m => Except.error m
  | none =>
    match (w.tmp.find? (fun p => p.1 == path)).map (fun p => p.2) with
    | none => Except.error "FileNotFoundError"
    | some d => Except.ok d

/-- os.remove: the oracle entry for the current attempt decides failure;
a failed attempt leaves the file; every attempt is logged. -/
def osRemove (env : Env) (w : World) (path : String) : World × Option String :=
  let w' := { w with removeLog := path :: w.removeLog }
  match env.removeErrs.getD w.removeLog.length none with
  | some m => (w', some m)
  | none => ({ w' with tmp := w'.tmp.filter (fun p => p.1 != path) }, none)

/-- s3 put_object (lines 103 to 108). -/
def putObject (env : Env) (w : World) (bucket key contentType : String)
    (tw th : Nat) : Except String World :=
  match env.putObjectErr with
  | some m => Except.error m
  | none => Except.ok { w with store := ⟨bucket, key, contentType, tw, th⟩ :: w.store }

/-- store_metadata (lines 31 to 48): put_item of the record with both
timestamps read from the clock; a failure is printed and re-raised. -/
def store_metadata (env : Env) (w : World) (fid : Nat)
    (original_file thumbnail_path : String) (file_size : Nat) : Except String World :=
  match env.putItemErr with
  | some m => Except.error m
  | none => Except.ok { w with
      metadata := ⟨fid, original_file, thumbnail_path, file_size, "pdf",
                   w.clock, w.clock⟩ :: w.metadata }

/-- The except block (lines 129 to 138): if the download path exists a
removal is attempted.  When the attempt raises, the inner except clause
rebinds and then clears the variable e, so building the 500 body from
str(e) at line 138 raises UnboundLocalError and the handler produces no
result at all (modelled as none); otherwise the caught message is
returned with status 500. -/
def exceptCleanup (env : Env) (w : World) (path msg : String) :
    Option HResult × World :=
  if (w.tmp.find? (fun p => p.1 == path)).isSome then
    match osRemove env w path with
    | (w2, none) => (some ⟨500, Body.msg msg⟩, w2)
    | (w2, some _) => (none, w2)
  else
    (some ⟨500, Body.msg msg⟩, w)

/-- The body of the try block (lines 58 to 138), with every raised
exception routed to the except block; a none result models the
UnboundLocalError crash of the except block itself.  The KeyError branch
mirrors a parse failure before download_path is bound, in which case the
except block does no cleanup. -/
def handlerTry (cfg : Config) (env : Env) (w0 : World) (e : Event) :
    Option HResult × World :=
  match parseEvent e with
  | none => (some ⟨500, Body.msg "KeyError"⟩, w0)
  | some (srcBucket, srcKey, fileSize) =>
    let fid := w0.uuidCtr
    let w1 := { w0 with uuidCtr := w0.uuidCtr + 1 }
    let dp := download_path_of srcKey
    match downloadFile env w1 srcBucket srcKey dp with
    | Except.error m => exceptCleanup env w1 dp m
    | Except.ok w2 =>
      match fitzOpen env w2 dp with
      | Except.error m => exceptCleanup env w2 dp m
      | Except.ok doc =>
        if doc.pageCount = 0 then
          match osRemove env w2 dp with
          | (w3, some m) => exceptCleanup env w3 dp m
          | (w3, none) => (some ⟨400, Body.msg "PDF has no pages."⟩, w3)
        else
          match parseSize cfg.THUMBNAIL_SIZE with
          | none => exceptCleanup env w2 dp "ValueError"
          | some (mw, mh) =>
            let dims := pilThumbnail doc.pix0w doc.pix0h mw mh
            let tk := thumbnail_key_of cfg srcKey
            let tb := target_bucket_of cfg srcBucket
            match putObject env w2 tb tk "image/png" dims.1 dims.2 with
            | Except.error m => exceptCleanup env w2 dp m
            | Except.ok w3 =>
              match store_metadata env w3 fid
                  ("s3://" ++ srcBucket ++ "/" ++ srcKey)
                  ("s3://" ++ tb ++ "/" ++ tk) fileSize with
              | Except.error m => exceptCleanup env w3 dp m
              | Except.ok w4 =>
                match osRemove env w4 dp with
                | (w5, some m) => exceptCleanup env w5 dp m
                | (w5, none) =>
                  (some ⟨200, Body.success "Successfully processed PDF" fid tk⟩, w5)

/-- Packaging of the try-block outcome: a crash inside the except block
escapes the handler, so no result is observed. -/
def runResult : Option HResult × World → Option (HResult × World)
  | (some r, w) => some (r, w)
  | (none, _) => none

/-- lambda_handler (lines 50 to 138).  The classifier runs outside the
try block, so its exception (none) escapes; a rejected event returns the
skip result with the world untouched; a crash of the except block also
escapes with no result. -/
def lambda_handler (cfg : Config) (env : Env) (w : World) (e : Event) :
    Option (HResult × World) :=
  match should_process_event cfg e with
  | none => none
  | some false => some (⟨200, Body.msg "Skipped non-PDF or thumbnail"⟩, w)
  | some true => runResult (handlerTry cfg env w e)

/-- The messages a caught exception of a run can carry: oracle messages
plus the fixed messages of the modelled library exceptions. -/
def errCandidates (env : Env) : List String :=
  env.downloadErr.toList ++ ["NoSuchKey", "FileNotFoundError", "ValueError", "KeyError"] ++
  env.openErr.toList ++ env.putObjectErr.toList ++ env.putItemErr.toList ++
  env.removeErrs.reduceOption

/-! Concrete fixtures used by witnesses and counterexamples. -/

/-- Configuration with the documented defaults. -/
def cfgDefault : Config := ⟨none, "thumbnails/", "200x200"⟩

/-- Configuration whose target bucket is set to the empty string. -/
def cfgEmptyTarget : Config := ⟨some "", "thumbnails/", "200x200"⟩

/-- A three-page document whose first page rasterizes to 100 by 150. -/
def docSample : PDFDoc := ⟨3, 100, 150⟩

/-- A document with zero pages. -/
def docEmpty : PDFDoc := ⟨0, 0, 0⟩

/-- World holding the sample document of the spec example. -/
def worldSample : World :=
  ⟨[("src-bucket", "reports/Q1 2024.pdf", docSample)], [], [], [], 0, 7, [], []⟩

/-- Batch-shape event for the sample document, with the space of the key
percent-encoded as a plus. -/
def eventSample : Event := ⟨some [⟨"src-bucket", "reports/Q1+2024.pdf", 10240⟩], none⟩

/-- World holding the zero-page document. -/
def worldEmptyDoc : World :=
  ⟨[("src-bucket", "empty.pdf", docEmpty)], [], [], [], 0, 7, [], []⟩

/-- Single-event-shape notification for the zero-page document. -/
def eventEmptyDoc : Event := ⟨none, some ⟨"src-bucket", "empty.pdf", 5⟩⟩

/-- Event whose key lies under the thumbnail prefix. -/
def eventThumb : Event := ⟨some [⟨"src-bucket", "thumbnails/x.pdf", 1⟩], none⟩

/-- Event carrying neither wire shape. -/
def eventMalformed : Event := ⟨none, none⟩

/-- Oracle on which every external call succeeds. -/
def envOK : Env := ⟨none, none, none, none, []⟩

/-- Oracle on which the first two removal attempts fail. -/
def envRmFailTwice : Env := ⟨none, none, none, none, [some "rm-error-1", some "rm-error-2"]⟩

/-- Oracle on which only the first removal attempt fails. -/
def envRmFailOnce : Env := ⟨none, none, none, none, [some "rm-error-1"]⟩

/-- World whose tmp directory holds one leftover file. -/
def worldWithTmp : World := ⟨[], [("/tmp/x.pdf", docSample)], [], [], 0, 7, [], []⟩

/-- The thumbnail object a successful run on the sample world stores. -/
def thumbObjSample : StoredObject :=
  ⟨"src-bucket", "thumbnails/Q1 2024.png", "image/png", 100, 150⟩

/-- The metadata record a successful run on the sample world writes. -/
def metaItemSample (i : Nat) : MetaItem :=
  ⟨i, "s3://src-bucket/reports/Q1 2024.pdf",
   "s3://src-bucket/thumbnails/Q1 2024.png", 10240, "pdf", 7, 7⟩

/-- The world after one successful sample run. -/
def worldAfter1 : World :=
  ⟨worldSample.s3docs, [], [thumbObjSample], [metaItemSample 0], 1, 7,
   ["/tmp/Q1 2024.pdf"], ["/tmp/Q1 2024.pdf"]⟩

/-- The world after two successful sample runs. -/
def worldAfter2 : World :=
  ⟨worldSample.s3docs, [], [thumbObjSample, thumbObjSample],
   [metaItemSample 1, metaItemSample 0], 2, 7,
   ["/tmp/Q1 2024.pdf", "/tmp/Q1 2024.pdf"],
   ["/tmp/Q1 2024.pdf", "/tmp/Q1 2024.pdf"]⟩

/-! Frame lemmas about the state operations. -/

theorem runResult_some (r : HResult) (w : World) :
    runResult (some r, w) = some (r, w) := rfl

theorem runResult_none (w : World) : runResult (none, w) = none := rfl

theorem osRemove_fst_store (env : Env) (w : World) (p : String) :
    ((osRemove env w p).1).store = w.store := by
  unfold osRemove; split <;> rfl

theorem osRemove_fst_metadata (env : Env) (w : World) (p : String) :
    ((osRemove env w p).1).metadata = w.metadata := by
  unfold osRemove; split <;> rfl

theorem osRemove_fst_uuidCtr (env : Env) (w : World) (p : String) :
    ((osRemove env w p).1).uuidCtr = w.uuidCtr := by
  unfold osRemove; split <;> rfl

theorem osRemove_fst_downloads (env : Env) (w : World) (p : String) :
    ((osRemove env w p).1).downloads = w.downloads := by
  unfold osRemove; split <;> rfl

theorem osRemove_fst_removeLog (env : Env) (w : World) (p : String) :
    ((osRemove env w p).1).removeLog = p :: w.removeLog := by
  unfold osRemove; split <;> rfl

theorem exceptCleanup_notfound (env : Env) (w : World) (p m : String)
    (hf : (w.tmp.find? (fun q => q.1 == p)).isSome = false) :
    exceptCleanup env w p m = (some ⟨500, Body.msg m⟩, w) := by
  simp [exceptCleanup, hf]

theorem exceptCleanup_found_ok (env : Env) (w : World) (p m : String) (w2 : World)
    (hf : (w.tmp.find? (fun q => q.1 == p)).isSome = true)
    (hrm : osRemove env w p = (w2, none)) :
    exceptCleanup env w p m = (some ⟨500, Body.msg m⟩, w2) := by
  unfold exceptCleanup
  rw [if_pos hf, hrm]

theorem exceptCleanup_found_err (env : Env) (w : World) (p m m2 : String) (w2 : World)
    (hf : (w.tmp.find? (fun q => q.1 == p)).isSome = true)
    (hrm : osRemove env w p = (w2, some m2)) :
    exceptCleanup env w p m = (none, w2) := by
  unfold exceptCleanup
  rw [if_pos hf, hrm]

theorem exceptCleanup_fst_eq (env : Env) (w : World) (p m : String) :
    (exceptCleanup env w p m).1 = some ⟨500, Body.msg m⟩ ∨
    (exceptCleanup env w p m).1 = none := by
  unfold exceptCleanup
  split
  · rcases osRemove env w p with ⟨w2, o⟩
    cases o with
    | none => left; rfl
    | some m2 => right; rfl
  · left; rfl

theorem exceptCleanup_some (env : Env) (w : World) (p m : String) (r : HResult) (w' : World)
    (h : runResult (exceptCleanup env w p m) = some (r, w')) :
    r = ⟨500, Body.msg m⟩ ∧ w' = (exceptCleanup env w p m).2 := by
  rcases exceptCleanup_fst_eq env w p m with h1 | h1
  · have hC : exceptCleanup env w p m =
        (some ⟨500, Body.msg m⟩, (exceptCleanup env w p m).2) := by
      rw [← h1]
    rw [hC] at h
    cases h
    exact ⟨rfl, rfl⟩
  · have hC : exceptCleanup env w p m = (none, (exceptCleanup env w p m).2) := by
      rw [← h1]
    rw [hC] at h
    cases h

theorem exceptCleanup_snd_store (env : Env) (w : World) (p m : String) :
    ((exceptCleanup env w p m).2).store = w.store := by
  unfold exceptCleanup
  split
  · rcases hrm : osRemove env w p with ⟨w2, o⟩
    have h3 : (osRemove env w p).1 = w2 := by rw [hrm]
    have h2 : w2.store = w.store := by rw [← h3]; exact osRemove_fst_store env w p
    cases o with
    | none => exact h2
    | some m2 => exact h2
  · rfl

theorem exceptCleanup_snd_metadata (env : Env) (w : World) (p m : String) :
    ((exceptCleanup env w p m).2).metadata = w.metadata := by
  unfold exceptCleanup
  split
  · rcases hrm : osRemove env w p with ⟨w2, o⟩
    have h3 : (osRemove env w p).1 = w2 := by rw [hrm]
    have h2 : w2.metadata = w.metadata := by rw [← h3]; exact osRemove_fst_metadata env w p
    cases o with
    | none => exact h2
    | some m2 => exact h2
  · rfl

theorem exceptCleanup_snd_downloads (env : Env) (w : World) (p m : String) :
    ((exceptCleanup env w p m).2).downloads = w.downloads := by
  unfold exceptCleanup
  split
  · rcases hrm : osRemove env w p with ⟨w2, o⟩
    have h3 : (osRemove env w p).1 = w2 := by rw [hrm]
    have h2 : w2.downloads = w.downloads := by rw [← h3]; exact osRemove_fst_downloads env w p
    cases o with
    | none => exact h2
    | some m2 => exact h2
  · rfl

/-- Exhaustive case analysis of one run of the try block: exactly one of
the terminal shapes of the pipeline state machine applies. -/
theorem handlerTry_cases (cfg : Config) (env : Env) (w : World) (e : Event) :
    (parseEvent e = none ∧ handlerTry cfg env w e = (some ⟨500, Body.msg "KeyError"⟩, w)) ∨
    ∃ b dk fs, parseEvent e = some (b, dk, fs) ∧
      ((∃ m, downloadFile env { w with uuidCtr := w.uuidCtr + 1 } b dk (download_path_of dk) = Except.error m ∧
             handlerTry cfg env w e = exceptCleanup env { w with uuidCtr := w.uuidCtr + 1 } (download_path_of dk) m) ∨
       ∃ w2, downloadFile env { w with uuidCtr := w.uuidCtr + 1 } b dk (download_path_of dk) = Except.ok w2 ∧
         ((∃ m, fitzOpen env w2 (download_path_of dk) = Except.error m ∧
                handlerTry cfg env w e = exceptCleanup env w2 (download_path_of dk) m) ∨
          ∃ doc, fitzOpen env w2 (download_path_of dk) = Except.ok doc ∧
            ((doc.pageCount = 0 ∧
              ((∃ w3 m, osRemove env w2 (download_path_of dk) = (w3, some m) ∧
                        handlerTry cfg env w e = exceptCleanup env w3 (download_path_of dk) m) ∨
               (∃ w3, osRemove env w2 (download_path_of dk) = (w3, none) ∧
                      handlerTry cfg env w e = (some ⟨400, Body.msg "PDF has no pages."⟩, w3)))) ∨
             (doc.pageCount ≠ 0 ∧
              ((parseSize cfg.THUMBNAIL_SIZE = none ∧
                handlerTry cfg env w e = exceptCleanup env w2 (download_path_of dk) "ValueError") ∨
               ∃ mw mh, parseSize cfg.THUMBNAIL_SIZE = some (mw, mh) ∧
                 ((∃ m, putObject env w2 (target_bucket_of cfg b) (thumbnail_key_of cfg dk) "image/png"
                          (pilThumbnail doc.pix0w doc.pix0h mw mh).1 (pilThumbnail doc.pix0w doc.pix0h mw mh).2 = Except.error m ∧
                        handlerTry cfg env w e = exceptCleanup env w2 (download_path_of dk) m) ∨
                  ∃ w3, putObject env w2 (target_bucket_of cfg b) (thumbnail_key_of cfg dk) "image/png"
                          (pilThumbnail doc.pix0w doc.pix0h mw mh).1 (pilThumbnail doc.pix0w doc.pix0h mw mh).2 = Except.ok w3 ∧
                    ((∃ m, store_metadata env w3 w.uuidCtr ("s3://" ++ b ++ "/" ++ dk)
                             ("s3://" ++ target_bucket_of cfg b ++ "/" ++ thumbnail_key_of cfg dk) fs = Except.error m ∧
                           handlerTry cfg env w e = exceptCleanup env w3 (download_path_of dk) m) ∨
                     ∃ w4, store_metadata env w3 w.uuidCtr ("s3://" ++ b ++ "/" ++ dk)
                             ("s3://" ++ target_bucket_of cfg b ++ "/" ++ thumbnail_key_of cfg dk) fs = Except.ok w4 ∧
                       ((∃ w5 m, osRemove env w4 (download_path_of dk) = (w5, some m) ∧
                                 handlerTry cfg env w e = exceptCleanup env w5 (download_path_of dk) m) ∨
                        (∃ w5, osRemove env w4 (download_path_of dk) = (w5, none) ∧
                               handlerTry cfg env w e =
                                 (some ⟨200, Body.success "Successfully processed PDF" w.uuidCtr (thumbnail_key_of cfg dk)⟩, w5)))))))))) := by
  cases hp : parseEvent e with
  | none =>
    left
    exact ⟨rfl, by unfold handlerTry; rw [hp]⟩
  | some t =>
    obtain ⟨b, dk, fs⟩ := t
    right
    refine ⟨b, dk, fs, rfl, ?_⟩
    cases hdl : downloadFile env { w with uuidCtr := w.uuidCtr + 1 } b dk (download_path_of dk) with
    | error m =>
      left
      exact ⟨m, rfl, by simp only [handlerTry, hp, hdl]⟩
    | ok w2 =>
      right
      refine ⟨w2, rfl, ?_⟩
      cases hop : fitzOpen env w2 (download_path_of dk) with
      | error m =>
        left
        exact ⟨m, rfl, by simp only [handlerTry, hp, hdl, hop]⟩
      | ok doc =>
        right
        refine ⟨doc, rfl, ?_⟩
        by_cases hz : doc.pageCount = 0
        · left
          refine ⟨hz, ?_⟩
          cases hrm : osRemove env w2 (download_path_of dk) with
          | mk w3 o =>
            cases o with
            | some m =>
              left
              exact ⟨w3, m, rfl, by simp only [handlerTry, hp, hdl, hop, if_pos hz, hrm]⟩
            | none =>
              right
              exact ⟨w3, rfl, by simp only [handlerTry, hp, hdl, hop, if_pos hz, hrm]⟩
        · right
          refine ⟨hz, ?_⟩
          cases hps : parseSize cfg.THUMBNAIL_SIZE with
          | none =>
            left
            exact ⟨rfl, by simp only [handlerTry, hp, hdl, hop, if_neg hz, hps]⟩
          | some mwmh =>
            obtain ⟨mw, mh⟩ := mwmh
            right
            refine ⟨mw, mh, rfl, ?_⟩
            cases hpo : putObject env w2 (target_bucket_of cfg b) (thumbnail_key_of cfg dk) "image/png"
                (pilThumbnail doc.pix0w doc.pix0h mw mh).1 (pilThumbnail doc.pix0w doc.pix0h mw mh).2 with
            | error m =>
              left
              exact ⟨m, rfl, by simp only [handlerTry, hp, hdl, hop, if_neg hz, hps, hpo]⟩
            | ok w3 =>
              right
              refine ⟨w3, rfl, ?_⟩
              cases hsm : store_metadata env w3 w.uuidCtr ("s3://" ++ b ++ "/" ++ dk)
                  ("s3://" ++ target_bucket_of cfg b ++ "/" ++ thumbnail_key_of cfg dk) fs with
              | error m =>
                left
                exact ⟨m, rfl, by simp only [handlerTry, hp, hdl, hop, if_neg hz, hps, hpo, hsm]⟩
              | ok w4 =>
                right
                refine ⟨w4, rfl, ?_⟩
                cases hrm : osRemove env w4 (download_path_of dk) with
                | mk w5 o =>
                  cases o with
                  | some m =>
                    left
                    exact ⟨w5, m, rfl, by simp only [handlerTry, hp, hdl, hop, if_neg hz, hps, hpo, hsm, hrm]⟩
                  | none =>
                    right
                    exact ⟨w5, rfl, by simp only [handlerTry, hp, hdl, hop, if_neg hz, hps, hpo, hsm, hrm]⟩

/-! Inversion lemmas for the fallible operations. -/

theorem downloadFile_ok (env : Env) (w : World) (b k p : String) (w2 : World)
    (h : downloadFile env w b k p = Except.ok w2) :
    env.downloadErr = none ∧
    ∃ d, s3Lookup w b k = some d ∧
      w2 = { w with tmp := (p, d) :: w.tmp.filter (fun q => q.1 != p), downloads := p :: w.downloads } := by
  unfold downloadFile at h
  cases he : env.downloadErr with
  | some m => rw [he] at h; cases h
  | none =>
    rw [he] at h
    cases hl : s3Lookup w b k with
    | none => rw [hl] at h; cases h
    | some d =>
      rw [hl] at h
      cases h
      exact ⟨rfl, d, rfl, rfl⟩

theorem downloadFile_error (env : Env) (w : World) (b k p m : String)
    (h : downloadFile env w b k p = Except.error m) :
    env.downloadErr = some m ∨ m = "NoSuchKey" := by
  unfold downloadFile at h
  cases he : env.downloadErr with
  | some m0 => rw [he] at h; cases h; exact Or.inl rfl
  | none =>
    rw [he] at h
    cases hl : s3Lookup w b k with
    | none => rw [hl] at h; cases h; exact Or.inr rfl
    | some d => rw [hl] at h; cases h

theorem fitzOpen_error (env : Env) (w : World) (p m : String)
    (h : fitzOpen env w p = Except.error m) :
    env.openErr = some m ∨ m = "FileNotFoundError" := by
  unfold fitzOpen at h
  cases he : env.openErr with
  | some m0 => rw [he] at h; cases h; exact Or.inl rfl
  | none =>
    rw [he] at h
    cases hl : (w.tmp.find? (fun q => q.1 == p)).map (fun q => q.2) with
    | none => rw [hl] at h; cases h; exact Or.inr rfl
    | some d => rw [hl] at h; cases h

theorem putObject_ok (env : Env) (w : World) (bucket key ct : String) (tw th : Nat)
    (w2 : World) (h : putObject env w bucket key ct tw th = Except.ok w2) :
    env.putObjectErr = none ∧ w2 = { w with store := ⟨bucket, key, ct, tw, th⟩ :: w.store } := by
  unfold putObject at h
  cases he : env.putObjectErr with
  | some m => rw [he] at h; cases h
  | none => rw [he] at h; cases h; exact ⟨rfl, rfl⟩

theorem putObject_error (env : Env) (w : World) (bucket key ct : String) (tw th : Nat)
    (m : String) (h : putObject env w bucket key ct tw th = Except.error m) :
    env.putObjectErr = some m := by
  unfold putObject at h
  cases he : env.putObjectErr with
  | some m0 => rw [he] at h; cases h; rfl
  | none => rw [he] at h; cases h

theorem store_metadata_ok (env : Env) (w : World) (fid : Nat) (of tp : String)
    (fs : Nat) (w2 : World) (h : store_metadata env w fid of tp fs = Except.ok w2) :
    env.putItemErr = none ∧
    w2 = { w with metadata := ⟨fid, of, tp, fs, "pdf", w.clock, w.clock⟩ :: w.metadata } := by
  unfold store_metadata at h
  cases he : env.putItemErr with
  | some m => rw [he] at h; cases h
  | none => rw [he] at h; cases h; exact ⟨rfl, rfl⟩

theorem store_metadata_error (env : Env) (w : World) (fid : Nat) (of tp : String)
    (fs : Nat) (m : String) (h : store_metadata env w fid of tp fs = Except.error m) :
    env.putItemErr = some m := by
  unfold store_metadata at h
  cases he : env.putItemErr with
  | some m0 => rw [he] at h; cases h; rfl
  | none => rw [he] at h; cases h

theorem osRemove_snd_some (env : Env) (w : World) (p : String) (w3 : World) (m : String)
    (h : osRemove env w p = (w3, some m)) :
    env.removeErrs.getD w.removeLog.length none = some m := by
  unfold osRemove at h
  cases hg : env.removeErrs.getD w.removeLog.length none with
  | some m0 => rw [hg] at h; cases h; rfl
  | none => rw [hg] at h; cases h

theorem osRemove_snd_none (env : Env) (w : World) (p : String) (w3 : World)
    (h : osRemove env w p = (w3, none)) :
    env.removeErrs.getD w.removeLog.length none = none ∧
    w3 = { w with removeLog := p :: w.removeLog, tmp := w.tmp.filter (fun q => q.1 != p) } := by
  unfold osRemove at h
  cases hg : env.removeErrs.getD w.removeLog.length none with
  | some m0 => rw [hg] at h; cases h
  | none => rw [hg] at h; cases h; exact ⟨rfl, rfl⟩

/-- Case split of lambda_handler on the classifier outcome. -/
theorem lambda_handler_eq (cfg : Config) (env : Env) (w : World) (e : Event) :
    (should_process_event cfg e = none ∧ lambda_handler cfg env w e = none) ∨
    (should_process_event cfg e = some false ∧
      lambda_handler cfg env w e = some (⟨200, Body.msg "Skipped non-PDF or thumbnail"⟩, w)) ∨
    (should_process_event cfg e = some true ∧
      lambda_handler cfg env w e = runResult (handlerTry cfg env w e)) := by
  cases hsp : should_process_event cfg e with
  | none => exact Or.inl ⟨rfl, by unfold lambda_handler; rw [hsp]⟩
  | some bb =>
    cases bb with
    | false => exact Or.inr (Or.inl ⟨rfl, by unfold lambda_handler; rw [hsp]⟩)
    | true => exact Or.inr (Or.inr ⟨rfl, by unfold lambda_handler; rw [hsp]⟩)

/-- C4: for every run, either the metadata table is unchanged, or exactly
one record was added and exactly one object was published, and the record
references that object; in particular a run failing at or before the
publish step leaves the metadata table unchanged. -/
theorem metadata_only_after_publish (cfg : Config) (env : Env) (w : World) (e : Event)
    (r : HResult) (w' : World) (h : lambda_handler cfg env w e = some (r, w')) :
    w'.metadata = w.metadata ∨
    ∃ item obj, w'.metadata = item :: w.metadata ∧ w'.store = obj :: w.store ∧
      item.thumbnail_path = "s3://" ++ obj.bucket ++ "/" ++ obj.key := by
  rcases lambda_handler_eq cfg env w e with ⟨hsp, hl⟩ | ⟨hsp, hl⟩ | ⟨hsp, hl⟩
  · rw [hl] at h; cases h
  · rw [hl] at h
    cases h
    exact Or.inl rfl
  · rw [hl] at h
    rcases handlerTry_cases cfg env w e with ⟨hp, hres⟩ |
      ⟨b, dk, fs, hp, ⟨m, hdl, hres⟩ | ⟨w2, hdl, hcase⟩⟩
    · rw [hres] at h; cases h; exact Or.inl rfl
    · rw [hres] at h
      obtain ⟨-, hw'⟩ := exceptCleanup_some _ _ _ _ _ _ h
      left
      rw [hw', exceptCleanup_snd_metadata]
    · obtain ⟨-, d, hlook, hw2⟩ := downloadFile_ok _ _ _ _ _ _ hdl
      rcases hcase with ⟨m, hop, hres⟩ | ⟨doc, hop, hcase⟩
      · rw [hres] at h
        obtain ⟨-, hw'⟩ := exceptCleanup_some _ _ _ _ _ _ h
        left
        rw [hw', exceptCleanup_snd_metadata, hw2]
      · rcases hcase with ⟨hz, ⟨w3, m, hrm, hres⟩ | ⟨w3, hrm, hres⟩⟩ | ⟨hz, hcase⟩
        · rw [hres] at h
          obtain ⟨-, hw'⟩ := exceptCleanup_some _ _ _ _ _ _ h
          have h3 : (osRemove env w2 (download_path_of dk)).1 = w3 := congrArg Prod.fst hrm
          left
          rw [hw', exceptCleanup_snd_metadata, ← h3, osRemove_fst_metadata, hw2]
        · have h3 : (osRemove env w2 (download_path_of dk)).1 = w3 := congrArg Prod.fst hrm
          rw [hres] at h
          cases h
          left
          rw [← h3, osRemove_fst_metadata, hw2]
        · rcases hcase with ⟨hps, hres⟩ | ⟨mw, mh, hps, hcase⟩
          · rw [hres] at h
            obtain ⟨-, hw'⟩ := exceptCleanup_some _ _ _ _ _ _ h
            left
            rw [hw', exceptCleanup_snd_metadata, hw2]
          · rcases hcase with ⟨m, hpo, hres⟩ | ⟨w3, hpo, hcase⟩
            · rw [hres] at h
              obtain ⟨-, hw'⟩ := exceptCleanup_some _ _ _ _ _ _ h
              left
              rw [hw', exceptCleanup_snd_metadata, hw2]
            · obtain ⟨-, hw3⟩ := putObject_ok _ _ _ _ _ _ _ _ hpo
              rcases hcase with ⟨m, hsm, hres⟩ | ⟨w4, hsm, hcase⟩
              · rw [hres] at h
                obtain ⟨-, hw'⟩ := exceptCleanup_some _ _ _ _ _ _ h
                left
                rw [hw', exceptCleanup_snd_metadata, hw3, hw2]
              · obtain ⟨-, hw4⟩ := store_metadata_ok _ _ _ _ _ _ _ hsm
                right
                rcases hcase with ⟨w5, m, hrm, hres⟩ | ⟨w5, hrm, hres⟩
                · rw [hres] at h
                  obtain ⟨-, hw'⟩ := exceptCleanup_some _ _ _ _ _ _ h
                  have h3 : (osRemove env w4 (download_path_of dk)).1 = w5 := congrArg Prod.fst hrm
                  refine ⟨⟨w.uuidCtr, "s3://" ++ b ++ "/" ++ dk,
                      "s3://" ++ target_bucket_of cfg b ++ "/" ++ thumbnail_key_of cfg dk,
                      fs, "pdf", w3.clock, w3.clock⟩,
                    ⟨target_bucket_of cfg b, thumbnail_key_of cfg dk, "image/png",
                      (pilThumbnail doc.pix0w doc.pix0h mw mh).1,
                      (pilThumbnail doc.pix0w doc.pix0h mw mh).2⟩, ?_, ?_, rfl⟩
                  · rw [hw', exceptCleanup_snd_metadata, ← h3, osRemove_fst_metadata,
                      hw4, hw3, hw2]
                  · rw [hw', exceptCleanup_snd_store, ← h3, osRemove_fst_store,
                      hw4, hw3, hw2]
                · have h3 : (osRemove env w4 (download_path_of dk)).1 = w5 := congrArg Prod.fst hrm
                  rw [hres] at h
                  cases h
                  refine ⟨⟨w.uuidCtr, "s3://" ++ b ++ "/" ++ dk,
                      "s3://" ++ target_bucket_of cfg b ++ "/" ++ thumbnail_key_of cfg dk,
                      fs, "pdf", w3.clock, w3.clock⟩,
                    ⟨target_bucket_of cfg b, thumbnail_key_of cfg dk, "image/png",
                      (pilThumbnail doc.pix0w doc.pix0h mw mh).1,
                      (pilThumbnail doc.pix0w doc.pix0h mw mh).2⟩, ?_, ?_, rfl⟩
                  · rw [← h3, osRemove_fst_metadata, hw4, hw3, hw2]
                  · rw [← h3, osRemove_fst_store, hw4, hw3, hw2]

/-- Inversion of a successful fitz.open. -/
theorem fitzOpen_ok_env (env : Env) (w : World) (p : String) (doc : PDFDoc)
    (h : fitzOpen env w p = Except.ok doc) :
    env.openErr = none ∧ (w.tmp.find? (fun q => q.1 == p)).map (fun q => q.2) = some doc := by
  unfold fitzOpen at h
  cases he : env.openErr with
  | some m => rw [he] at h; cases h
  | none =>
    rw [he] at h
    cases hl : (w.tmp.find? (fun q => q.1 == p)).map (fun q => q.2) with
    | none => rw [hl] at h; cases h
    | some d => rw [hl] at h; cases h; exact ⟨rfl, rfl⟩

/-- The find of a path at the head of the tmp listing. -/
theorem find_head (p : String) (d : PDFDoc) (l : List (String × PDFDoc)) :
    (((p, d) :: l).find? (fun q => q.1 == p)).map (fun q => q.2) = some d := by
  rw [List.find?_cons_of_pos _ (by simp)]
  rfl

/-- C1: the classifier accepts exactly the decoded keys that end with the
pdf extension (after lowercasing) and do not start with the configured
prefix (case-insensitively); every rejected event yields the skip result
with the world untouched, so no store operation happens. -/
theorem classifier_gate_spec :
    (∀ (cfg : Config) (e : Event) (b : Bool),
      should_process_event cfg e = some b →
      (b = true ↔ ∃ k, rawKeyOf e = some k ∧
        pyEndsWith (pyLower (unquotePlus k)) ".pdf" = true ∧
        pyStartsWith (pyLower (unquotePlus k)) (pyLower cfg.THUMBNAIL_PREFIX_ENV) = false)) ∧
    (∀ (cfg : Config) (env : Env) (w : World) (e : Event),
      should_process_event cfg e = some false →
      lambda_handler cfg env w e =
        some (⟨200, Body.msg "Skipped non-PDF or thumbnail"⟩, w)) := by
  constructor
  · intro cfg e b h
    unfold should_process_event at h
    cases hk : rawKeyOf e with
    | none => rw [hk] at h; cases h
    | some k =>
      rw [hk] at h
      simp only [Option.map_some, Option.map_some'] at h
      rw [Option.some_inj] at h
      subst h
      constructor
      · intro hb
        unfold processKeyCond at hb
        rw [Bool.and_eq_true] at hb
        refine ⟨k, rfl, hb.1, ?_⟩
        simpa using hb.2
      · rintro ⟨k', hk', h1, h2⟩
        injection hk' with hkk
        subst hkk
        unfold processKeyCond
        rw [h1, h2]
        rfl
  · intro cfg env w e h
    unfold lambda_handler
    rw [h]

/-- Witness for C1 at the spec examples. -/
theorem classifier_gate_spec_witness :
    (lambda_handler cfgDefault envOK worldSample eventThumb =
      some (⟨200, Body.msg "Skipped non-PDF or thumbnail"⟩, worldSample)) ∧
    (true = true ↔ ∃ k, rawKeyOf eventSample = some k ∧
      pyEndsWith (pyLower (unquotePlus k)) ".pdf" = true ∧
      pyStartsWith (pyLower (unquotePlus k)) (pyLower cfgDefault.THUMBNAIL_PREFIX_ENV) = false) :=
  ⟨classifier_gate_spec.2 cfgDefault envOK worldSample eventThumb (by decide),
   classifier_gate_spec.1 cfgDefault eventSample true (by decide)⟩

/-- C10: on an event carrying a Records list, only the first record
matters and the detail field is ignored, both in the classifier and in
the handler, which therefore agree on the shape used. -/
theorem records_precedence (cfg : Config) (env : Env) (w : World)
    (r0 : S3Record) (rest : List S3Record) (d : Option S3Record) :
    should_process_event cfg ⟨some (r0 :: rest), d⟩ =
      should_process_event cfg ⟨some [r0], none⟩ ∧
    lambda_handler cfg env w ⟨some (r0 :: rest), d⟩ =
      lambda_handler cfg env w ⟨some [r0], none⟩ :=
  ⟨rfl, rfl⟩

/-- Inversion of a run that returned the success result: every step
succeeded, the identifier is the run's fresh uuid, and the store and the
metadata table each grew by the published artifact and its record. -/
theorem success_inversion (cfg : Config) (env : Env) (w : World) (e : Event)
    (msg : String) (fid : Nat) (k : String) (w' : World)
    (h : lambda_handler cfg env w e = some (⟨200, Body.success msg fid k⟩, w')) :
    msg = "Successfully processed PDF" ∧ fid = w.uuidCtr ∧
    w'.uuidCtr = w.uuidCtr + 1 ∧
    ∃ b dk fs doc mw mh,
      parseEvent e = some (b, dk, fs) ∧
      s3Lookup w b dk = some doc ∧
      doc.pageCount ≠ 0 ∧
      parseSize cfg.THUMBNAIL_SIZE = some (mw, mh) ∧
      k = thumbnail_key_of cfg dk ∧
      w'.store = ⟨target_bucket_of cfg b, thumbnail_key_of cfg dk, "image/png",
        (pilThumbnail doc.pix0w doc.pix0h mw mh).1,
        (pilThumbnail doc.pix0w doc.pix0h mw mh).2⟩ :: w.store ∧
      w'.metadata = ⟨w.uuidCtr, "s3://" ++ b ++ "/" ++ dk,
        "s3://" ++ target_bucket_of cfg b ++ "/" ++ thumbnail_key_of cfg dk,
        fs, "pdf", w.clock, w.clock⟩ :: w.metadata := by
  rcases lambda_handler_eq cfg env w e with ⟨hsp, hl⟩ | ⟨hsp, hl⟩ | ⟨hsp, hl⟩
  · rw [hl] at h; cases h
  · rw [hl] at h; simp at h
  · rw [hl] at h
    rcases handlerTry_cases cfg env w e with ⟨hp, hres⟩ |
      ⟨b, dk, fs, hp, ⟨m, hdl, hres⟩ | ⟨w2, hdl, hcase⟩⟩
    · rw [hres, runResult_some] at h
      simp at h
    · rw [hres] at h
      obtain ⟨hr, -⟩ := exceptCleanup_some _ _ _ _ _ _ h
      simp at hr
    · obtain ⟨-, d, hlook, hw2⟩ := downloadFile_ok _ _ _ _ _ _ hdl
      rcases hcase with ⟨m, hop, hres⟩ | ⟨doc, hop, hcase⟩
      · rw [hres] at h
        obtain ⟨hr, -⟩ := exceptCleanup_some _ _ _ _ _ _ h
        simp at hr
      · rcases hcase with ⟨hz, ⟨w3, m, hrm, hres⟩ | ⟨w3, hrm, hres⟩⟩ | ⟨hz, hcase⟩
        · rw [hres] at h
          obtain ⟨hr, -⟩ := exceptCleanup_some _ _ _ _ _ _ h
          simp at hr
        · rw [hres, runResult_some] at h
          simp at h
        · rcases hcase with ⟨hps, hres⟩ | ⟨mw, mh, hps, hcase⟩
          · rw [hres] at h
            obtain ⟨hr, -⟩ := exceptCleanup_some _ _ _ _ _ _ h
            simp at hr
          · rcases hcase with ⟨m, hpo, hres⟩ | ⟨w3, hpo, hcase⟩
            · rw [hres] at h
              obtain ⟨hr, -⟩ := exceptCleanup_some _ _ _ _ _ _ h
              simp at hr
            · obtain ⟨-, hw3⟩ := putObject_ok _ _ _ _ _ _ _ _ hpo
              rcases hcase with ⟨m, hsm, hres⟩ | ⟨w4, hsm, hcase⟩
              · rw [hres] at h
                obtain ⟨hr, -⟩ := exceptCleanup_some _ _ _ _ _ _ h
                simp at hr
              · obtain ⟨-, hw4⟩ := store_metadata_ok _ _ _ _ _ _ _ hsm
                rcases hcase with ⟨w5, m, hrm, hres⟩ | ⟨w5, hrm, hres⟩
                · rw [hres] at h
                  obtain ⟨hr, -⟩ := exceptCleanup_some _ _ _ _ _ _ h
                  simp at hr
                · have h3 : (osRemove env w4 (download_path_of dk)).1 = w5 :=
                    congrArg Prod.fst hrm
                  rw [hres, runResult_some] at h
                  cases h
                  obtain ⟨-, hfind⟩ := fitzOpen_ok_env _ _ _ _ hop
                  rw [hw2, find_head, Option.some_inj] at hfind
                  refine ⟨rfl, rfl, ?_, b, dk, fs, doc, mw, mh, hp, ?_, hz, hps, rfl, ?_, ?_⟩
                  · rw [← h3, osRemove_fst_uuidCtr, hw4, hw3, hw2]
                  · rw [← hfind]
                    exact hlook
                  · rw [← h3, osRemove_fst_store, hw4, hw3, hw2]
                  · rw [← h3, osRemove_fst_metadata, hw4, hw3, hw2]

/-- C7: two successful runs on events with the same source bucket and key
produce distinct identifiers and the same derived thumbnail key; the
second run pushes an object with the same bucket and key on top of the
store (last write wins) while adding a separate metadata record. -/
theorem reprocessing_same_key (cfg : Config) (env1 env2 : Env) (w0 w1 w2 : World)
    (e1 e2 : Event) (b dk : String) (fs1 fs2 : Nat)
    (msg1 msg2 : String) (fid1 fid2 : Nat) (k1 k2 : String)
    (hp1 : parseEvent e1 = some (b, dk, fs1))
    (hp2 : parseEvent e2 = some (b, dk, fs2))
    (h1 : lambda_handler cfg env1 w0 e1 = some (⟨200, Body.success msg1 fid1 k1⟩, w1))
    (h2 : lambda_handler cfg env2 w1 e2 = some (⟨200, Body.success msg2 fid2 k2⟩, w2)) :
    fid1 ≠ fid2 ∧ k1 = k2 ∧
    (∃ o1 o2, w1.store = o1 :: w0.store ∧ w2.store = o2 :: w1.store ∧
      o2.bucket = o1.bucket ∧ o2.key = o1.key) ∧
    (∃ m1 m2, w1.metadata = m1 :: w0.metadata ∧ w2.metadata = m2 :: w1.metadata ∧
      m1.file_id ≠ m2.file_id) := by
  obtain ⟨-, hfid1, hu1, b1, dk1, fsx1, doc1, mw1, mh1, hpx1, -, -, -, hk1, hs1, hm1⟩ :=
    success_inversion _ _ _ _ _ _ _ _ h1
  obtain ⟨-, hfid2, hu2, b2, dk2, fsx2, doc2, mw2, mh2, hpx2, -, -, -, hk2, hs2, hm2⟩ :=
    success_inversion _ _ _ _ _ _ _ _ h2
  rw [hp1] at hpx1
  injection hpx1 with hpx1
  injection hpx1 with hb1 hpx1
  injection hpx1 with hdk1 hfs1
  rw [hp2] at hpx2
  injection hpx2 with hpx2
  injection hpx2 with hb2 hpx2
  injection hpx2 with hdk2 hfs2
  subst hb1; subst hdk1; subst hb2; subst hdk2
  refine ⟨?_, ?_, ?_, ?_⟩
  · rw [hfid1, hfid2, hu1]
    omega
  · rw [hk1, hk2]
  · exact ⟨_, _, hs1, hs2, rfl, rfl⟩
  · refine ⟨_, _, hm1, hm2, ?_⟩
    show w0.uuidCtr ≠ w1.uuidCtr
    rw [hu1]
    omega
/-- Witness for C7 on two concrete successful sample runs. -/
theorem reprocessing_same_key_witness :
    (0 : Nat) ≠ 1 ∧ ("thumbnails/Q1 2024.png" : String) = "thumbnails/Q1 2024.png" :=
  ⟨(reprocessing_same_key cfgDefault envOK envOK worldSample worldAfter1 worldAfter2
      eventSample eventSample "src-bucket" "reports/Q1 2024.pdf" 10240 10240
      "Successfully processed PDF" "Successfully processed PDF" 0 1
      "thumbnails/Q1 2024.png" "thumbnails/Q1 2024.png"
      (by decide) (by decide) (by decide) (by decide)).1,
   (reprocessing_same_key cfgDefault envOK envOK worldSample worldAfter1 worldAfter2
      eventSample eventSample "src-bucket" "reports/Q1 2024.pdf" 10240 10240
      "Successfully processed PDF" "Successfully processed PDF" 0 1
      "thumbnails/Q1 2024.png" "thumbnails/Q1 2024.png"
      (by decide) (by decide) (by decide) (by decide)).2.1⟩

/-- The destination bucket as a function of the configuration: the
override is used exactly when it is set to a nonempty string. -/
theorem target_bucket_of_spec (cfg : Config) (b : String) :
    (∀ t, cfg.TARGET_BUCKET_NAME = some t → t ≠ "" → target_bucket_of cfg b = t) ∧
    ((cfg.TARGET_BUCKET_NAME = none ∨ cfg.TARGET_BUCKET_NAME = some "") →
      target_bucket_of cfg b = b) := by
  constructor
  · intro t ht hne
    unfold target_bucket_of
    rw [ht]
    show (if t = "" then b else t) = t
    rw [if_neg hne]
  · intro hcase
    unfold target_bucket_of
    rcases hcase with hc | hc
    · rw [hc]
    · rw [hc]
      show (if ("" : String) = "" then b else "") = b
      rw [if_pos rfl]

/-- C2 (amended): every run that publishes writes exactly one object,
under the derived thumbnail key with the png content type, into the
configured target bucket when that is set to a nonempty string and into
the source bucket otherwise (the code tests truthiness, so an
empty-string override falls back to the source bucket). -/
theorem publish_destination (cfg : Config) (env : Env) (w : World) (e : Event)
    (r : HResult) (w' : World)
    (h : lambda_handler cfg env w e = some (r, w'))
    (hch : w'.store ≠ w.store) :
    ∃ b dk fs obj, parseEvent e = some (b, dk, fs) ∧
      w'.store = obj :: w.store ∧
      obj.key = thumbnail_key_of cfg dk ∧
      obj.contentType = "image/png" ∧
      (∀ t, cfg.TARGET_BUCKET_NAME = some t → t ≠ "" → obj.bucket = t) ∧
      ((cfg.TARGET_BUCKET_NAME = none ∨ cfg.TARGET_BUCKET_NAME = some "") →
        obj.bucket = b) := by
  rcases lambda_handler_eq cfg env w e with ⟨hsp, hl⟩ | ⟨hsp, hl⟩ | ⟨hsp, hl⟩
  · rw [hl] at h; cases h
  · rw [hl] at h
    cases h
    exact absurd rfl hch
  · rw [hl] at h
    rcases handlerTry_cases cfg env w e with ⟨hp, hres⟩ |
      ⟨b, dk, fs, hp, ⟨m, hdl, hres⟩ | ⟨w2, hdl, hcase⟩⟩
    · rw [hres, runResult_some] at h
      cases h
      exact absurd rfl hch
    · rw [hres] at h
      obtain ⟨-, hw'⟩ := exceptCleanup_some _ _ _ _ _ _ h
      exact absurd (by rw [hw', exceptCleanup_snd_store]) hch
    · obtain ⟨-, d, hlook, hw2⟩ := downloadFile_ok _ _ _ _ _ _ hdl
      rcases hcase with ⟨m, hop, hres⟩ | ⟨doc, hop, hcase⟩
      · rw [hres] at h
        obtain ⟨-, hw'⟩ := exceptCleanup_some _ _ _ _ _ _ h
        exact absurd (by rw [hw', exceptCleanup_snd_store, hw2]) hch
      · rcases hcase with ⟨hz, ⟨w3, m, hrm, hres⟩ | ⟨w3, hrm, hres⟩⟩ | ⟨hz, hcase⟩
        · rw [hres] at h
          obtain ⟨-, hw'⟩ := exceptCleanup_some _ _ _ _ _ _ h
          have h3 : (osRemove env w2 (download_path_of dk)).1 = w3 := congrArg Prod.fst hrm
          exact absurd (by rw [hw', exceptCleanup_snd_store, ← h3, osRemove_fst_store, hw2]) hch
        · have h3 : (osRemove env w2 (download_path_of dk)).1 = w3 := congrArg Prod.fst hrm
          rw [hres, runResult_some] at h
          cases h
          exact absurd (by rw [← h3, osRemove_fst_store, hw2]) hch
        · rcases hcase with ⟨hps, hres⟩ | ⟨mw, mh, hps, hcase⟩
          · rw [hres] at h
            obtain ⟨-, hw'⟩ := exceptCleanup_some _ _ _ _ _ _ h
            exact absurd (by rw [hw', exceptCleanup_snd_store, hw2]) hch
          · rcases hcase with ⟨m, hpo, hres⟩ | ⟨w3, hpo, hcase⟩
            · rw [hres] at h
              obtain ⟨-, hw'⟩ := exceptCleanup_some _ _ _ _ _ _ h
              exact absurd (by rw [hw', exceptCleanup_snd_store, hw2]) hch
            · obtain ⟨-, hw3⟩ := putObject_ok _ _ _ _ _ _ _ _ hpo
              obtain ⟨htb1, htb2⟩ := target_bucket_of_spec cfg b
              rcases hcase with ⟨m, hsm, hres⟩ | ⟨w4, hsm, hcase⟩
              · rw [hres] at h
                obtain ⟨-, hw'⟩ := exceptCleanup_some _ _ _ _ _ _ h
                refine ⟨b, dk, fs,
                  ⟨target_bucket_of cfg b, thumbnail_key_of cfg dk, "image/png",
                      (pilThumbnail doc.pix0w doc.pix0h mw mh).1,
                      (pilThumbnail doc.pix0w doc.pix0h mw mh).2⟩, hp, ?_, rfl, rfl, htb1, htb2⟩
                rw [hw', exceptCleanup_snd_store, hw3, hw2]
              · obtain ⟨-, hw4⟩ := store_metadata_ok _ _ _ _ _ _ _ hsm
                rcases hcase with ⟨w5, m, hrm, hres⟩ | ⟨w5, hrm, hres⟩
                · rw [hres] at h
                  obtain ⟨-, hw'⟩ := exceptCleanup_some _ _ _ _ _ _ h
                  have h3 : (osRemove env w4 (download_path_of dk)).1 = w5 := congrArg Prod.fst hrm
                  refine ⟨b, dk, fs,
                    ⟨target_bucket_of cfg b, thumbnail_key_of cfg dk, "image/png",
                      (pilThumbnail doc.pix0w doc.pix0h mw mh).1,
                      (pilThumbnail doc.pix0w doc.pix0h mw mh).2⟩, hp, ?_, rfl, rfl, htb1, htb2⟩
                  rw [hw', exceptCleanup_snd_store, ← h3, osRemove_fst_store, hw4, hw3, hw2]
                · have h3 : (osRemove env w4 (download_path_of dk)).1 = w5 := congrArg Prod.fst hrm
                  rw [hres, runResult_some] at h
                  cases h
                  refine ⟨b, dk, fs,
                    ⟨target_bucket_of cfg b, thumbnail_key_of cfg dk, "image/png",
                      (pilThumbnail doc.pix0w doc.pix0h mw mh).1,
                      (pilThumbnail doc.pix0w doc.pix0h mw mh).2⟩, hp, ?_, rfl, rfl, htb1, htb2⟩
                  rw [← h3, osRemove_fst_store, hw4, hw3, hw2]

/-- Counterexample to C2 as stated: with TARGET_BUCKET_NAME set to the
empty string, a successful run publishes into the source bucket, not
into the bucket given by the set configuration. -/
theorem publish_destination_cex :
    cfgEmptyTarget.TARGET_BUCKET_NAME = some "" ∧
    (lambda_handler cfgEmptyTarget envOK worldSample eventSample).map
      (fun p => p.2.store.map (fun o => o.bucket)) = some ["src-bucket"] ∧
    ("src-bucket" : String) ≠ "" := by
  exact ⟨rfl, by decide, by decide⟩

/-- Witness for the amended C2 on a concrete successful run. -/
theorem publish_destination_witness :
    ∃ b dk fs obj, parseEvent eventSample = some (b, dk, fs) ∧
      worldAfter1.store = obj :: worldSample.store ∧
      obj.key = thumbnail_key_of cfgDefault dk ∧
      obj.contentType = "image/png" ∧
      (∀ t, cfgDefault.TARGET_BUCKET_NAME = some t → t ≠ "" → obj.bucket = t) ∧
      ((cfgDefault.TARGET_BUCKET_NAME = none ∨ cfgDefault.TARGET_BUCKET_NAME = some "") →
        obj.bucket = b) :=
  publish_destination cfgDefault envOK worldSample eventSample
    ⟨200, Body.success "Successfully processed PDF" 0 "thumbnails/Q1 2024.png"⟩
    worldAfter1 (by decide) (by decide)

/-- A path consed at the head of the listing is found. -/
theorem find_head_isSome (p : String) (d : PDFDoc) (l : List (String × PDFDoc)) :
    (((p, d) :: l).find? (fun q => q.1 == p)).isSome = true := by
  rw [List.find?_cons_of_pos _ (by simp)]
  rfl

/-- A successful removal filters the path out of the listing. -/
theorem osRemove_fst_tmp_ok (env : Env) (w : World) (p : String)
    (hok : env.removeErrs.getD w.removeLog.length none = none) :
    ((osRemove env w p).1).tmp = w.tmp.filter (fun q => q.1 != p) := by
  unfold osRemove
  rw [hok]

/-- Cleanup in the except block logs one removal when the file exists. -/
theorem exceptCleanup_snd_removeLog_found (env : Env) (w : World) (p m : String)
    (hf : (w.tmp.find? (fun q => q.1 == p)).isSome = true) :
    ((exceptCleanup env w p m).2).removeLog = p :: w.removeLog := by
  unfold exceptCleanup
  rw [if_pos hf]
  rcases hrm : osRemove env w p with ⟨w2, o⟩
  have h3 : (osRemove env w p).1 = w2 := by rw [hrm]
  have h2 : w2.removeLog = p :: w.removeLog := by rw [← h3]; exact osRemove_fst_removeLog env w p
  cases o with
  | none => exact h2
  | some m2 => exact h2

/-- Cleanup in the except block deletes the file when the removal
attempt succeeds. -/
theorem exceptCleanup_snd_tmp_found (env : Env) (w : World) (p m : String)
    (hf : (w.tmp.find? (fun q => q.1 == p)).isSome = true)
    (hok : env.removeErrs.getD w.removeLog.length none = none) :
    ((exceptCleanup env w p m).2).tmp = w.tmp.filter (fun q => q.1 != p) := by
  unfold exceptCleanup
  rw [if_pos hf]
  rcases hrm : osRemove env w p with ⟨w2, o⟩
  have h3 : (osRemove env w p).1 = w2 := by rw [hrm]
  have h2 : w2.tmp = w.tmp.filter (fun q => q.1 != p) := by
    rw [← h3]; exact osRemove_fst_tmp_ok env w p hok
  cases o with
  | none => exact h2
  | some m2 => exact h2

/-- Filtering a path away after placing it at the head gives the
original listing filtered. -/
theorem filter_cons_self (p : String) (d : PDFDoc) (l : List (String × PDFDoc)) :
    ((p, d) :: l.filter (fun q => q.1 != p)).filter (fun q => q.1 != p) =
      l.filter (fun q => q.1 != p) := by
  rw [List.filter_cons]
  simp [List.filter_filter]

/-- After a successful download, opening the downloaded path yields the
stored document. -/
theorem fitzOpen_after_download (env : Env) (w : World) (bk kk p : String) (w2 : World)
    (hdl : downloadFile env w bk kk p = Except.ok w2) (hopen : env.openErr = none) :
    ∃ d, s3Lookup w bk kk = some d ∧ fitzOpen env w2 p = Except.ok d ∧
      w2.tmp = (p, d) :: w.tmp.filter (fun q => q.1 != p) ∧
      w2.removeLog = w.removeLog ∧ w2.store = w.store ∧ w2.metadata = w.metadata := by
  obtain ⟨-, d, hlook, hw2⟩ := downloadFile_ok _ _ _ _ _ _ hdl
  subst hw2
  refine ⟨d, hlook, ?_, rfl, rfl, rfl, rfl⟩
  unfold fitzOpen
  rw [hopen]
  have hF : (({ w with tmp := (p, d) :: w.tmp.filter (fun q => q.1 != p), downloads := p :: w.downloads } : World).tmp.find? (fun q => q.1 == p)).map (fun q => q.2) = some d :=
    find_head p d (w.tmp.filter (fun q => q.1 != p))
  rw [hF]

/-- C3 (amended): a run whose fetched document has zero pages and whose
workspace deletion succeeds returns 400 with the empty-document message,
leaves no workspace file behind, and publishes neither a thumbnail nor a
metadata record; when that deletion fails the exception is caught and a
second deletion is attempted: the run surfaces 500 with the deletion
error when the second attempt succeeds, and crashes with no result when
it also fails (the except clause has already cleared e). -/
theorem empty_pdf_400 (cfg : Config) (env : Env) (w : World) (e : Event)
    (b dk : String) (fs : Nat) (doc : PDFDoc)
    (hsp : should_process_event cfg e = some true)
    (hparse : parseEvent e = some (b, dk, fs))
    (hdl : env.downloadErr = none)
    (hfound : s3Lookup w b dk = some doc)
    (hopen : env.openErr = none)
    (hzero : doc.pageCount = 0)
    (hrm : env.removeErrs.getD w.removeLog.length none = none) :
    ∃ w', lambda_handler cfg env w e = some (⟨400, Body.msg "PDF has no pages."⟩, w') ∧
      w'.tmp = w.tmp.filter (fun q => q.1 != download_path_of dk) ∧
      w'.store = w.store ∧ w'.metadata = w.metadata := by
  have hfound' : s3Lookup { w with uuidCtr := w.uuidCtr + 1 } b dk = some doc := hfound
  rcases lambda_handler_eq cfg env w e with ⟨hsp2, hl⟩ | ⟨hsp2, hl⟩ | ⟨hsp2, hl⟩
  · rw [hsp2] at hsp; cases hsp
  · rw [hsp2] at hsp; injection hsp with hb; cases hb
  · rcases handlerTry_cases cfg env w e with ⟨hpX, hres⟩ | ⟨b2, dk2, fs2, hpX, hcase⟩
    · rw [hparse] at hpX; cases hpX
    · rw [hparse] at hpX
      injection hpX with hpX
      injection hpX with hb2 hpX
      injection hpX with hdk2 hfs2
      subst hb2; subst hdk2; subst hfs2
      rcases hcase with ⟨m, hdlX, hres⟩ | ⟨w2, hdlX, hcase⟩
      · simp only [downloadFile, hdl, hfound'] at hdlX
        exact Except.noConfusion hdlX
      · obtain ⟨d, hlook, hopok, htmp2, hlog2, hst2, hmd2⟩ :=
          fitzOpen_after_download _ _ _ _ _ _ hdlX hopen
        rw [hfound'] at hlook
        injection hlook with hd
        subst hd
        rcases hcase with ⟨m, hopX, hres⟩ | ⟨doc2, hopX, hcase⟩
        · rw [hopok] at hopX; cases hopX
        · rw [hopok] at hopX
          injection hopX with hdoc2
          subst hdoc2
          rcases hcase with ⟨hz, ⟨w3, m, hrmX, hres⟩ | ⟨w3, hrmX, hres⟩⟩ | ⟨hz, hcase⟩
          · have h4 : env.removeErrs.getD w.removeLog.length none = some m := by
              have := osRemove_snd_some _ _ _ _ _ hrmX
              rw [hlog2] at this
              exact this
            rw [hrm] at h4
            cases h4
          · obtain ⟨-, hw3⟩ := osRemove_snd_none _ _ _ _ hrmX
            refine ⟨w3, ?_, ?_, ?_, ?_⟩
            · rw [hl, hres, runResult_some]
            · rw [hw3]
              show w2.tmp.filter (fun q => q.1 != download_path_of dk) = _
              rw [htmp2]
              exact filter_cons_self _ _ _
            · rw [hw3]
              show w2.store = w.store
              exact hst2
            · rw [hw3]
              show w2.metadata = w.metadata
              exact hmd2
          · exact absurd hzero hz

/-- Counterexample to C3 as stated: on a zero-page document whose first
removal attempt fails, the handler returns 500 when the second attempt
succeeds, and no result at all when both attempts fail. -/
theorem empty_pdf_400_cex :
    lambda_handler cfgDefault envRmFailTwice worldEmptyDoc eventEmptyDoc = none ∧
    (lambda_handler cfgDefault envRmFailOnce worldEmptyDoc eventEmptyDoc).map
      (fun p => (p.1, p.2.tmp.map Prod.fst)) =
      some (⟨500, Body.msg "rm-error-1"⟩, []) := by decide

/-- Witness for the amended C3 on a concrete zero-page run. -/
theorem empty_pdf_400_witness :
    ∃ w', lambda_handler cfgDefault envOK worldEmptyDoc eventEmptyDoc =
        some (⟨400, Body.msg "PDF has no pages."⟩, w') ∧
      w'.tmp = worldEmptyDoc.tmp.filter (fun q => q.1 != download_path_of "empty.pdf") ∧
      w'.store = worldEmptyDoc.store ∧ w'.metadata = worldEmptyDoc.metadata :=
  empty_pdf_400 cfgDefault envOK worldEmptyDoc eventEmptyDoc "src-bucket" "empty.pdf" 5
    docEmpty (by decide) (by decide) rfl (by decide) rfl rfl rfl

/-- A removal attempt whose oracle entry is none succeeds. -/
theorem osRemove_ok_pair (env : Env) (w : World) (p : String)
    (hok : env.removeErrs.getD w.removeLog.length none = none) :
    osRemove env w p = ((osRemove env w p).1, none) := by
  unfold osRemove
  rw [hok]

/-- The except block either keeps a 500 result with the original message,
or crashes after a failed removal whose oracle entry carries a message. -/
theorem exceptCleanup_disj (env : Env) (w : World) (p m : String) :
    (∃ w2, exceptCleanup env w p m = (some ⟨500, Body.msg m⟩, w2)) ∨
    (runResult (exceptCleanup env w p m) = none ∧
      ∃ i m2, env.removeErrs.getD i none = some m2) := by
  unfold exceptCleanup
  split
  · rcases hrm : osRemove env w p with ⟨w2, o⟩
    cases o with
    | none => exact Or.inl ⟨w2, rfl⟩
    | some m2 =>
      exact Or.inr ⟨rfl, w.removeLog.length, m2, osRemove_snd_some env w p w2 m2 hrm⟩
  · exact Or.inl ⟨w, rfl⟩

/-- C5 (amended): when the except-block deletion succeeds, the 500 result
with the original error message stands (the cleanup outcome never weakens
it); when that deletion fails, the except block crashes and the handler
produces no result.  When every removal attempt succeeds, each run that
downloaded the workspace file removes it exactly once, whatever terminal
state is reached. -/
theorem cleanup_discipline :
    (∀ (env : Env) (w : World) (p m : String) (w2 : World),
      (w.tmp.find? (fun q => q.1 == p)).isSome = true →
      osRemove env w p = (w2, none) →
      exceptCleanup env w p m = (some ⟨500, Body.msg m⟩, w2)) ∧
    (∀ (env : Env) (w : World) (p m m2 : String) (w2 : World),
      (w.tmp.find? (fun q => q.1 == p)).isSome = true →
      osRemove env w p = (w2, some m2) →
      exceptCleanup env w p m = (none, w2)) ∧
    (∀ (cfg : Config) (env : Env) (w : World) (e : Event)
      (b dk : String) (fs : Nat) (doc : PDFDoc),
      should_process_event cfg e = some true →
      parseEvent e = some (b, dk, fs) →
      env.downloadErr = none →
      s3Lookup w b dk = some doc →
      env.removeErrs = [] →
      ∃ r w', lambda_handler cfg env w e = some (r, w') ∧
        w'.removeLog = download_path_of dk :: w.removeLog ∧
        w'.tmp = w.tmp.filter (fun q => q.1 != download_path_of dk)) := by
  refine ⟨fun env w p m w2 hf hrm => exceptCleanup_found_ok env w p m w2 hf hrm,
    fun env w p m m2 w2 hf hrm => exceptCleanup_found_err env w p m m2 w2 hf hrm, ?_⟩
  intro cfg env w e b dk fs doc hsp hparse hdl hfound henv
  have hfound' : s3Lookup { w with uuidCtr := w.uuidCtr + 1 } b dk = some doc := hfound
  have hga : ∀ n, env.removeErrs.getD n none = none := by
    intro n; rw [henv]; rfl
  rcases lambda_handler_eq cfg env w e with ⟨hsp2, hl⟩ | ⟨hsp2, hl⟩ | ⟨hsp2, hl⟩
  · rw [hsp2] at hsp; cases hsp
  · rw [hsp2] at hsp; injection hsp with hb; cases hb
  · rcases handlerTry_cases cfg env w e with ⟨hpX, hres⟩ | ⟨b2, dk2, fs2, hpX, hcase⟩
    · rw [hparse] at hpX; cases hpX
    · rw [hparse] at hpX
      injection hpX with hpX
      injection hpX with hb2 hpX
      injection hpX with hdk2 hfs2
      subst hb2; subst hdk2; subst hfs2
      rcases hcase with ⟨m, hdlX, hres⟩ | ⟨w2, hdlX, hcase⟩
      · simp only [downloadFile, hdl, hfound'] at hdlX
        exact Except.noConfusion hdlX
      · obtain ⟨-, d, hlook, hw2⟩ := downloadFile_ok _ _ _ _ _ _ hdlX
        have htmp2 : w2.tmp =
            (download_path_of dk, d) :: w.tmp.filter (fun q => q.1 != download_path_of dk) := by
          rw [hw2]
        have hlog2 : w2.removeLog = w.removeLog := by rw [hw2]
        have hf2 : (w2.tmp.find? (fun q => q.1 == download_path_of dk)).isSome = true := by
          rw [htmp2]; exact find_head_isSome _ _ _
        have hok2 : env.removeErrs.getD w2.removeLog.length none = none := hga _
        rcases hcase with ⟨m, hopX, hres⟩ | ⟨doc2, hopX, hcase⟩
        · have hec : exceptCleanup env w2 (download_path_of dk) m =
              (some ⟨500, Body.msg m⟩, (osRemove env w2 (download_path_of dk)).1) :=
            exceptCleanup_found_ok _ _ _ _ _ hf2 (osRemove_ok_pair env w2 _ hok2)
          refine ⟨_, _, by rw [hl, hres, hec, runResult_some], ?_, ?_⟩
          · rw [osRemove_fst_removeLog, hlog2]
          · rw [osRemove_fst_tmp_ok env w2 _ hok2, htmp2]
            exact filter_cons_self _ _ _
        · rcases hcase with ⟨hz, ⟨w3, m, hrmX, hres⟩ | ⟨w3, hrmX, hres⟩⟩ | ⟨hz, hcase⟩
          · have h4 := osRemove_snd_some _ _ _ _ _ hrmX
            rw [hok2] at h4
            cases h4
          · obtain ⟨-, hw3⟩ := osRemove_snd_none _ _ _ _ hrmX
            refine ⟨_, _, by rw [hl, hres, runResult_some], ?_, ?_⟩
            · rw [hw3]
              show download_path_of dk :: w2.removeLog = _
              rw [hlog2]
            · rw [hw3]
              show w2.tmp.filter (fun q => q.1 != download_path_of dk) = _
              rw [htmp2]
              exact filter_cons_self _ _ _
          · rcases hcase with ⟨hps, hres⟩ | ⟨mw, mh, hps, hcase⟩
            · have hec : exceptCleanup env w2 (download_path_of dk) "ValueError" =
                  (some ⟨500, Body.msg "ValueError"⟩,
                   (osRemove env w2 (download_path_of dk)).1) :=
                exceptCleanup_found_ok _ _ _ _ _ hf2 (osRemove_ok_pair env w2 _ hok2)
              refine ⟨_, _, by rw [hl, hres, hec, runResult_some], ?_, ?_⟩
              · rw [osRemove_fst_removeLog, hlog2]
              · rw [osRemove_fst_tmp_ok env w2 _ hok2, htmp2]
                exact filter_cons_self _ _ _
            · rcases hcase with ⟨m, hpo, hres⟩ | ⟨w3, hpo, hcase⟩
              · have hec : exceptCleanup env w2 (download_path_of dk) m =
                    (some ⟨500, Body.msg m⟩, (osRemove env w2 (download_path_of dk)).1) :=
                  exceptCleanup_found_ok _ _ _ _ _ hf2 (osRemove_ok_pair env w2 _ hok2)
                refine ⟨_, _, by rw [hl, hres, hec, runResult_some], ?_, ?_⟩
                · rw [osRemove_fst_removeLog, hlog2]
                · rw [osRemove_fst_tmp_ok env w2 _ hok2, htmp2]
                  exact filter_cons_self _ _ _
              · obtain ⟨-, hw3⟩ := putObject_ok _ _ _ _ _ _ _ _ hpo
                have htmp3 : w3.tmp = w2.tmp := by rw [hw3]
                have hlog3 : w3.removeLog = w2.removeLog := by rw [hw3]
                have hf3 : (w3.tmp.find? (fun q => q.1 == download_path_of dk)).isSome = true := by
                  rw [htmp3]; exact hf2
                have hok3 : env.removeErrs.getD w3.removeLog.length none = none := hga _
                rcases hcase with ⟨m, hsm, hres⟩ | ⟨w4, hsm, hcase⟩
                · have hec : exceptCleanup env w3 (download_path_of dk) m =
                      (some ⟨500, Body.msg m⟩, (osRemove env w3 (download_path_of dk)).1) :=
                    exceptCleanup_found_ok _ _ _ _ _ hf3 (osRemove_ok_pair env w3 _ hok3)
                  refine ⟨_, _, by rw [hl, hres, hec, runResult_some], ?_, ?_⟩
                  · rw [osRemove_fst_removeLog, hlog3, hlog2]
                  · rw [osRemove_fst_tmp_ok env w3 _ hok3, htmp3, htmp2]
                    exact filter_cons_self _ _ _
                · obtain ⟨-, hw4⟩ := store_metadata_ok _ _ _ _ _ _ _ hsm
                  have htmp4 : w4.tmp = w2.tmp := by rw [hw4]; exact htmp3
                  have hlog4 : w4.removeLog = w2.removeLog := by rw [hw4]; exact hlog3
                  have hok4 : env.removeErrs.getD w4.removeLog.length none = none := hga _
                  rcases hcase with ⟨w5, m, hrmX, hres⟩ | ⟨w5, hrmX, hres⟩
                  · have h4 := osRemove_snd_some _ _ _ _ _ hrmX
                    rw [hok4] at h4
                    cases h4
                  · obtain ⟨-, hw5⟩ := osRemove_snd_none _ _ _ _ hrmX
                    refine ⟨_, _, by rw [hl, hres, runResult_some], ?_, ?_⟩
                    · rw [hw5]
                      show download_path_of dk :: w4.removeLog = _
                      rw [hlog4, hlog2]
                    · rw [hw5]
                      show w4.tmp.filter (fun q => q.1 != download_path_of dk) = _
                      rw [htmp4, htmp2]
                      exact filter_cons_self _ _ _

/-- Counterexample to C5 as stated: with a failing first removal the
success path surfaces 500 instead of 200 and a second removal attempt is
made, so a deletion failure both changes the decided outcome and breaks
the exactly-once discipline. -/
theorem cleanup_discipline_cex :
    (lambda_handler cfgDefault envOK worldSample eventSample).map
      (fun p => p.1.statusCode) = some 200 ∧
    (lambda_handler cfgDefault envRmFailOnce worldSample eventSample).map
      (fun p => p.1.statusCode) = some 500 ∧
    envRmFailOnce = { envOK with removeErrs := [some "rm-error-1"] } ∧
    (lambda_handler cfgDefault envRmFailOnce worldSample eventSample).map
      (fun p => p.2.removeLog.length) = some 2 := by decide

/-- Witness for the amended C5: a concrete crashing except-block cleanup
and a concrete successful run with exactly one deletion. -/
theorem cleanup_discipline_witness :
    exceptCleanup envRmFailOnce worldWithTmp "/tmp/x.pdf" "boom" =
      (none, ⟨[], [("/tmp/x.pdf", docSample)], [], [], 0, 7, [], ["/tmp/x.pdf"]⟩) ∧
    ∃ r w', lambda_handler cfgDefault envOK worldSample eventSample = some (r, w') ∧
      w'.removeLog = download_path_of "reports/Q1 2024.pdf" :: worldSample.removeLog ∧
      w'.tmp = worldSample.tmp.filter
        (fun q => q.1 != download_path_of "reports/Q1 2024.pdf") :=
  ⟨cleanup_discipline.2.1 envRmFailOnce worldWithTmp "/tmp/x.pdf" "boom" "rm-error-1"
      ⟨[], [("/tmp/x.pdf", docSample)], [], [], 0, 7, [], ["/tmp/x.pdf"]⟩ rfl rfl,
   cleanup_discipline.2.2 cfgDefault envOK worldSample eventSample "src-bucket"
    "reports/Q1 2024.pdf" 10240 docSample (by decide) (by decide) rfl (by decide) rfl⟩

/-- An entry read by getD out of the removal oracle is among its
non-none messages. -/
theorem mem_reduceOption_of_getD {l : List (Option String)} {i : Nat} {m : String}
    (h : l.getD i none = some m) : m ∈ l.reduceOption := by
  have h3 : l.get? i = some (some m) := by
    cases hg : l.get? i with
    | none => unfold List.getD at h; rw [hg] at h; cases h
    | some o =>
      unfold List.getD at h
      rw [hg] at h
      cases h
      rfl
  exact List.reduceOption_mem_iff.mpr (List.get?_mem h3)

/-- Sufficient conditions for a message to be a candidate error
message of a run. -/
theorem mem_errCandidates (env : Env) (m : String) :
    (env.downloadErr = some m ∨ env.openErr = some m ∨ env.putObjectErr = some m ∨
     env.putItemErr = some m ∨ (∃ i, env.removeErrs.getD i none = some m) ∨
     m = "NoSuchKey" ∨ m = "FileNotFoundError" ∨ m = "ValueError" ∨ m = "KeyError") →
    m ∈ errCandidates env := by
  intro hc
  unfold errCandidates
  simp only [List.mem_append]
  rcases hc with h | h | h | h | ⟨i, h⟩ | h | h | h | h
  · exact Or.inl (Or.inl (Or.inl (Or.inl (Or.inl (by rw [h]; exact List.mem_singleton.mpr rfl)))))
  · exact Or.inl (Or.inl (Or.inl (Or.inr (by rw [h]; exact List.mem_singleton.mpr rfl))))
  · exact Or.inl (Or.inl (Or.inr (by rw [h]; exact List.mem_singleton.mpr rfl)))
  · exact Or.inl (Or.inr (by rw [h]; exact List.mem_singleton.mpr rfl))
  · exact Or.inr (mem_reduceOption_of_getD h)
  · subst h; exact Or.inl (Or.inl (Or.inl (Or.inl (Or.inr (by decide)))))
  · subst h; exact Or.inl (Or.inl (Or.inl (Or.inl (Or.inr (by decide)))))
  · subst h; exact Or.inl (Or.inl (Or.inl (Or.inl (Or.inr (by decide)))))
  · subst h; exact Or.inl (Or.inl (Or.inl (Or.inl (Or.inr (by decide)))))

/-- C6 (amended): every event the classifier can parse yields either a
result with status 200, 400 or 500 whose 500 body carries the message of
the exception that aborted the run, or no result at all: the latter
happens exactly when the except-block cleanup itself fails, which
requires a removal error in the oracle. -/
theorem result_statuses (cfg : Config) (env : Env) (w : World) (e : Event)
    (hsp : (should_process_event cfg e).isSome = true) :
    (∃ r w', lambda_handler cfg env w e = some (r, w') ∧
      (r.statusCode = 200 ∨ r.statusCode = 400 ∨ r.statusCode = 500) ∧
      (r.statusCode = 500 → ∃ m, r.body = Body.msg m ∧ m ∈ errCandidates env)) ∨
    (lambda_handler cfg env w e = none ∧
      ∃ i m, env.removeErrs.getD i none = some m) := by
  rcases lambda_handler_eq cfg env w e with ⟨hsp2, hl⟩ | ⟨hsp2, hl⟩ | ⟨hsp2, hl⟩
  · rw [hsp2] at hsp; simp at hsp
  · left
    refine ⟨_, _, hl, Or.inl rfl, ?_⟩
    intro h
    exact absurd h (by decide)
  · rcases handlerTry_cases cfg env w e with ⟨hpX, hres⟩ | ⟨b, dk, fs, hpX, hcase⟩
    · left
      refine ⟨_, _, by rw [hl, hres, runResult_some], Or.inr (Or.inr rfl), ?_⟩
      intro _
      exact ⟨"KeyError", rfl, mem_errCandidates env _
        (Or.inr (Or.inr (Or.inr (Or.inr (Or.inr (Or.inr (Or.inr (Or.inr rfl))))))))⟩
    · rcases hcase with ⟨m, hdlX, hres⟩ | ⟨w2, hdlX, hcase⟩
      · rcases exceptCleanup_disj env { w with uuidCtr := w.uuidCtr + 1 }
            (download_path_of dk) m with ⟨w6, hec⟩ | ⟨hec, hi⟩
        · left
          refine ⟨_, _, by rw [hl, hres, hec, runResult_some], Or.inr (Or.inr rfl),
            fun _ => ⟨m, rfl, mem_errCandidates env m ?_⟩⟩
          rcases downloadFile_error _ _ _ _ _ _ hdlX with h | h
          · exact Or.inl h
          · exact Or.inr (Or.inr (Or.inr (Or.inr (Or.inr (Or.inl h)))))
        · exact Or.inr ⟨by rw [hl, hres]; exact hec, hi⟩
      · rcases hcase with ⟨m, hopX, hres⟩ | ⟨doc, hopX, hcase⟩
        · rcases exceptCleanup_disj env w2 (download_path_of dk) m with ⟨w6, hec⟩ | ⟨hec, hi⟩
          · left
            refine ⟨_, _, by rw [hl, hres, hec, runResult_some], Or.inr (Or.inr rfl),
              fun _ => ⟨m, rfl, mem_errCandidates env m ?_⟩⟩
            rcases fitzOpen_error _ _ _ _ hopX with h | h
            · exact Or.inr (Or.inl h)
            · exact Or.inr (Or.inr (Or.inr (Or.inr (Or.inr (Or.inr (Or.inl h))))))
          · exact Or.inr ⟨by rw [hl, hres]; exact hec, hi⟩
        · rcases hcase with ⟨hz, ⟨w3, m, hrmX, hres⟩ | ⟨w3, hrmX, hres⟩⟩ | ⟨hz, hcase⟩
          · rcases exceptCleanup_disj env w3 (download_path_of dk) m with ⟨w6, hec⟩ | ⟨hec, hi⟩
            · left
              refine ⟨_, _, by rw [hl, hres, hec, runResult_some], Or.inr (Or.inr rfl),
                fun _ => ⟨m, rfl, mem_errCandidates env m ?_⟩⟩
              exact Or.inr (Or.inr (Or.inr (Or.inr (Or.inl
                ⟨_, osRemove_snd_some _ _ _ _ _ hrmX⟩))))
            · exact Or.inr ⟨by rw [hl, hres]; exact hec, hi⟩
          · left
            refine ⟨_, _, by rw [hl, hres, runResult_some], Or.inr (Or.inl rfl), ?_⟩
            intro h
            exact absurd h (by decide)
          · rcases hcase with ⟨hps, hres⟩ | ⟨mw, mh, hps, hcase⟩
            · rcases exceptCleanup_disj env w2 (download_path_of dk) "ValueError" with
                ⟨w6, hec⟩ | ⟨hec, hi⟩
              · left
                refine ⟨_, _, by rw [hl, hres, hec, runResult_some], Or.inr (Or.inr rfl),
                  fun _ => ⟨"ValueError", rfl, mem_errCandidates env _ ?_⟩⟩
                exact Or.inr (Or.inr (Or.inr (Or.inr (Or.inr (Or.inr (Or.inr (Or.inl rfl)))))))
              · exact Or.inr ⟨by rw [hl, hres]; exact hec, hi⟩
            · rcases hcase with ⟨m, hpoX, hres⟩ | ⟨w3, hpoX, hcase⟩
              · rcases exceptCleanup_disj env w2 (download_path_of dk) m with
                  ⟨w6, hec⟩ | ⟨hec, hi⟩
                · left
                  refine ⟨_, _, by rw [hl, hres, hec, runResult_some], Or.inr (Or.inr rfl),
                    fun _ => ⟨m, rfl, mem_errCandidates env m ?_⟩⟩
                  exact Or.inr (Or.inr (Or.inl (putObject_error _ _ _ _ _ _ _ _ hpoX)))
                · exact Or.inr ⟨by rw [hl, hres]; exact hec, hi⟩
              · rcases hcase with ⟨m, hsmX, hres⟩ | ⟨w4, hsmX, hcase⟩
                · rcases exceptCleanup_disj env w3 (download_path_of dk) m with
                    ⟨w6, hec⟩ | ⟨hec, hi⟩
                  · left
                    refine ⟨_, _, by rw [hl, hres, hec, runResult_some], Or.inr (Or.inr rfl),
                      fun _ => ⟨m, rfl, mem_errCandidates env m ?_⟩⟩
                    exact Or.inr (Or.inr (Or.inr (Or.inl
                      (store_metadata_error _ _ _ _ _ _ _ hsmX))))
                  · exact Or.inr ⟨by rw [hl, hres]; exact hec, hi⟩
                · rcases hcase with ⟨w5, m, hrmX, hres⟩ | ⟨w5, hrmX, hres⟩
                  · rcases exceptCleanup_disj env w5 (download_path_of dk) m with
                      ⟨w6, hec⟩ | ⟨hec, hi⟩
                    · left
                      refine ⟨_, _, by rw [hl, hres, hec, runResult_some], Or.inr (Or.inr rfl),
                        fun _ => ⟨m, rfl, mem_errCandidates env m ?_⟩⟩
                      exact Or.inr (Or.inr (Or.inr (Or.inr (Or.inl
                        ⟨_, osRemove_snd_some _ _ _ _ _ hrmX⟩))))
                    · exact Or.inr ⟨by rw [hl, hres]; exact hec, hi⟩
                  · left
                    refine ⟨_, _, by rw [hl, hres, runResult_some], Or.inl rfl, ?_⟩
                    intro h
                    simp at h

/-- Counterexample to C6 as stated: an event carrying neither wire shape
makes the classifier raise before the try block, and a parseable event
whose two removal attempts both fail crashes inside the except block; in
both cases the handler terminates with no result at all. -/
theorem result_statuses_cex :
    lambda_handler cfgDefault envOK worldSample eventMalformed = none ∧
    lambda_handler cfgDefault envRmFailTwice worldSample eventSample = none := by decide

/-- Witness for the amended C6 on a concrete parseable event. -/
theorem result_statuses_witness :
    (∃ r w', lambda_handler cfgDefault envOK worldSample eventSample = some (r, w') ∧
      (r.statusCode = 200 ∨ r.statusCode = 400 ∨ r.statusCode = 500) ∧
      (r.statusCode = 500 → ∃ m, r.body = Body.msg m ∧ m ∈ errCandidates envOK)) ∨
    (lambda_handler cfgDefault envOK worldSample eventSample = none ∧
      ∃ i m, envOK.removeErrs.getD i none = some m) :=
  result_statuses cfgDefault envOK worldSample eventSample (by decide)

/-- C9: one and the same decoded key drives the classifier decision, the
handler parse, the workspace path passed to download, and the derived
thumbnail key of any published object. -/
theorem decode_consistency (cfg : Config) (e : Event) (k : String)
    (hk : rawKeyOf e = some k) :
    should_process_event cfg e = some (processKeyCond cfg (unquotePlus k)) ∧
    (∀ b dk fs, parseEvent e = some (b, dk, fs) → dk = unquotePlus k) ∧
    (∀ (env : Env) (w : World) (r : HResult) (w' : World),
      lambda_handler cfg env w e = some (r, w') →
      (w'.downloads = w.downloads ∨
        w'.downloads = download_path_of (unquotePlus k) :: w.downloads) ∧
      (w'.store = w.store ∨
        ∃ o, w'.store = o :: w.store ∧ o.key = thumbnail_key_of cfg (unquotePlus k))) := by
  have hparse : ∀ b dk fs, parseEvent e = some (b, dk, fs) → dk = unquotePlus k := by
    intro b dk fs hp
    cases hrec : e.records with
    | some rs =>
      unfold rawKeyOf at hk
      unfold parseEvent at hp
      simp only [hrec] at hk hp
      cases hh : rs.head? with
      | none => rw [hh] at hk; cases hk
      | some r0 =>
        rw [hh] at hk hp
        injection hk with hk2
        injection hp with hp2
        injection hp2 with hb hp2
        injection hp2 with hdk hfs
        have hk3 : r0.objectKey = k := hk2
        rw [← hdk, hk3]
    | none =>
      unfold rawKeyOf at hk
      unfold parseEvent at hp
      simp only [hrec] at hk hp
      cases hd : e.detail with
      | none => rw [hd] at hk; cases hk
      | some r0 =>
        rw [hd] at hk hp
        injection hk with hk2
        injection hp with hp2
        injection hp2 with hb hp2
        injection hp2 with hdk hfs
        have hk3 : r0.objectKey = k := hk2
        rw [← hdk, hk3]
  refine ⟨by unfold should_process_event; rw [hk]; rfl, hparse, ?_⟩
  intro env w r w' h
  rcases lambda_handler_eq cfg env w e with ⟨hsp, hl⟩ | ⟨hsp, hl⟩ | ⟨hsp, hl⟩
  · rw [hl] at h; cases h
  · rw [hl] at h
    cases h
    exact ⟨Or.inl rfl, Or.inl rfl⟩
  · rw [hl] at h
    rcases handlerTry_cases cfg env w e with ⟨hpX, hres⟩ |
      ⟨b, dk, fs, hpX, hcase⟩
    · rw [hres, runResult_some] at h
      cases h
      exact ⟨Or.inl rfl, Or.inl rfl⟩
    · have hdk : dk = unquotePlus k := hparse _ _ _ hpX
      subst hdk
      rcases hcase with ⟨m, hdl, hres⟩ | ⟨w2, hdl, hcase⟩
      · rw [hres] at h
        obtain ⟨-, hw'⟩ := exceptCleanup_some _ _ _ _ _ _ h
        refine ⟨Or.inl ?_, Or.inl ?_⟩
        · rw [hw', exceptCleanup_snd_downloads]
        · rw [hw', exceptCleanup_snd_store]
      · obtain ⟨-, d, hlook, hw2⟩ := downloadFile_ok _ _ _ _ _ _ hdl
        have hdw2 : w2.downloads = download_path_of (unquotePlus k) :: w.downloads := by
          rw [hw2]
        have hst2 : w2.store = w.store := by rw [hw2]
        rcases hcase with ⟨m, hop, hres⟩ | ⟨doc, hop, hcase⟩
        · rw [hres] at h
          obtain ⟨-, hw'⟩ := exceptCleanup_some _ _ _ _ _ _ h
          refine ⟨Or.inr ?_, Or.inl ?_⟩
          · rw [hw', exceptCleanup_snd_downloads, hdw2]
          · rw [hw', exceptCleanup_snd_store, hst2]
        · rcases hcase with ⟨hz, ⟨w3, m, hrm, hres⟩ | ⟨w3, hrm, hres⟩⟩ | ⟨hz, hcase⟩
          · rw [hres] at h
            obtain ⟨-, hw'⟩ := exceptCleanup_some _ _ _ _ _ _ h
            have h3 : (osRemove env w2 (download_path_of (unquotePlus k))).1 = w3 :=
              congrArg Prod.fst hrm
            refine ⟨Or.inr ?_, Or.inl ?_⟩
            · rw [hw', exceptCleanup_snd_downloads, ← h3, osRemove_fst_downloads, hdw2]
            · rw [hw', exceptCleanup_snd_store, ← h3, osRemove_fst_store, hst2]
          · have h3 : (osRemove env w2 (download_path_of (unquotePlus k))).1 = w3 :=
              congrArg Prod.fst hrm
            rw [hres, runResult_some] at h
            cases h
            refine ⟨Or.inr ?_, Or.inl ?_⟩
            · rw [← h3, osRemove_fst_downloads, hdw2]
            · rw [← h3, osRemove_fst_store, hst2]
          · rcases hcase with ⟨hps, hres⟩ | ⟨mw, mh, hps, hcase⟩
            · rw [hres] at h
              obtain ⟨-, hw'⟩ := exceptCleanup_some _ _ _ _ _ _ h
              refine ⟨Or.inr ?_, Or.inl ?_⟩
              · rw [hw', exceptCleanup_snd_downloads, hdw2]
              · rw [hw', exceptCleanup_snd_store, hst2]
            · rcases hcase with ⟨m, hpo, hres⟩ | ⟨w3, hpo, hcase⟩
              · rw [hres] at h
                obtain ⟨-, hw'⟩ := exceptCleanup_some _ _ _ _ _ _ h
                refine ⟨Or.inr ?_, Or.inl ?_⟩
                · rw [hw', exceptCleanup_snd_downloads, hdw2]
                · rw [hw', exceptCleanup_snd_store, hst2]
              · obtain ⟨-, hw3⟩ := putObject_ok _ _ _ _ _ _ _ _ hpo
                have hdw3 : w3.downloads = download_path_of (unquotePlus k) :: w.downloads := by
                  rw [hw3]
                  show w2.downloads = _
                  exact hdw2
                have hobj : w3.store =
                    (⟨target_bucket_of cfg b, thumbnail_key_of cfg (unquotePlus k), "image/png",
                      (pilThumbnail doc.pix0w doc.pix0h mw mh).1,
                      (pilThumbnail doc.pix0w doc.pix0h mw mh).2⟩ : StoredObject) :: w.store := by
                  rw [hw3]
                  show _ :: w2.store = _
                  rw [hst2]
                rcases hcase with ⟨m, hsm, hres⟩ | ⟨w4, hsm, hcase⟩
                · rw [hres] at h
                  obtain ⟨-, hw'⟩ := exceptCleanup_some _ _ _ _ _ _ h
                  refine ⟨Or.inr ?_, Or.inr ⟨⟨target_bucket_of cfg b, thumbnail_key_of cfg (unquotePlus k), "image/png",
                      (pilThumbnail doc.pix0w doc.pix0h mw mh).1,
                      (pilThumbnail doc.pix0w doc.pix0h mw mh).2⟩, ?_, rfl⟩⟩
                  · rw [hw', exceptCleanup_snd_downloads, hdw3]
                  · rw [hw', exceptCleanup_snd_store, hobj]
                · obtain ⟨-, hw4⟩ := store_metadata_ok _ _ _ _ _ _ _ hsm
                  have hdw4 : w4.downloads = download_path_of (unquotePlus k) :: w.downloads := by
                    rw [hw4]
                    show w3.downloads = _
                    exact hdw3
                  have hst4 : w4.store =
                      (⟨target_bucket_of cfg b, thumbnail_key_of cfg (unquotePlus k), "image/png",
                      (pilThumbnail doc.pix0w doc.pix0h mw mh).1,
                      (pilThumbnail doc.pix0w doc.pix0h mw mh).2⟩ : StoredObject) :: w.store := by
                    rw [hw4]
                    show w3.store = _
                    exact hobj
                  rcases hcase with ⟨w5, m, hrm, hres⟩ | ⟨w5, hrm, hres⟩
                  · rw [hres] at h
                    obtain ⟨-, hw'⟩ := exceptCleanup_some _ _ _ _ _ _ h
                    have h3 : (osRemove env w4 (download_path_of (unquotePlus k))).1 = w5 :=
                      congrArg Prod.fst hrm
                    refine ⟨Or.inr ?_, Or.inr ⟨⟨target_bucket_of cfg b, thumbnail_key_of cfg (unquotePlus k), "image/png",
                      (pilThumbnail doc.pix0w doc.pix0h mw mh).1,
                      (pilThumbnail doc.pix0w doc.pix0h mw mh).2⟩, ?_, rfl⟩⟩
                    · rw [hw', exceptCleanup_snd_downloads, ← h3, osRemove_fst_downloads, hdw4]
                    · rw [hw', exceptCleanup_snd_store, ← h3, osRemove_fst_store, hst4]
                  · have h3 : (osRemove env w4 (download_path_of (unquotePlus k))).1 = w5 :=
                      congrArg Prod.fst hrm
                    rw [hres, runResult_some] at h
                    cases h
                    refine ⟨Or.inr ?_, Or.inr ⟨⟨target_bucket_of cfg b, thumbnail_key_of cfg (unquotePlus k), "image/png",
                      (pilThumbnail doc.pix0w doc.pix0h mw mh).1,
                      (pilThumbnail doc.pix0w doc.pix0h mw mh).2⟩, ?_, rfl⟩⟩
                    · rw [← h3, osRemove_fst_downloads, hdw4]
                    · rw [← h3, osRemove_fst_store, hst4]

/-- Witness for C9 at the percent-encoded sample key. -/
theorem decode_consistency_witness :
    should_process_event cfgDefault eventSample =
      some (processKeyCond cfgDefault (unquotePlus "reports/Q1+2024.pdf")) ∧
    (∀ b dk fs, parseEvent eventSample = some (b, dk, fs) →
      dk = unquotePlus "reports/Q1+2024.pdf") ∧
    (∀ (env : Env) (w : World) (r : HResult) (w' : World),
      lambda_handler cfgDefault env w eventSample = some (r, w') →
      (w'.downloads = w.downloads ∨
        w'.downloads = download_path_of (unquotePlus "reports/Q1+2024.pdf") :: w.downloads) ∧
      (w'.store = w.store ∨
        ∃ o, w'.store = o :: w.store ∧
          o.key = thumbnail_key_of cfgDefault (unquotePlus "reports/Q1+2024.pdf"))) :=
  decode_consistency cfgDefault eventSample "reports/Q1+2024.pdf" (by decide)

/-- A rounded value at least one stays within any positive bound that
dominates the exact value. -/
theorem maxRound_le {n : ℚ} {p : ℕ} (hp : p = (⌊n⌋).toNat ∨ p = (⌈n⌉).toNat)
    {m : ℕ} (hm : 0 < m) (hnm : n ≤ (m : ℚ)) : max p 1 ≤ m := by
  have h1 : ⌈n⌉ ≤ (m : ℤ) := Int.ceil_le.mpr (by exact_mod_cast hnm)
  have hc : (⌈n⌉).toNat ≤ m := by omega
  have hfc : ⌊n⌋ ≤ ⌈n⌉ := Int.floor_le_ceil n
  have hf : (⌊n⌋).toNat ≤ (⌈n⌉).toNat := by omega
  rcases hp with h | h <;> subst h
  · exact max_le (le_trans hf hc) hm
  · exact max_le hc hm

/-- A rounded value at least one differs from the exact nonnegative
value by at most one. -/
theorem maxRound_close {n : ℚ} {p : ℕ} (hp : p = (⌊n⌋).toNat ∨ p = (⌈n⌉).toNat)
    (hn : 0 ≤ n) : |((max p 1 : ℕ) : ℚ) - n| ≤ 1 := by
  have hfl : ((⌊n⌋ : ℤ) : ℚ) ≤ n := Int.floor_le n
  have hfl2 : n < ((⌊n⌋ : ℤ) : ℚ) + 1 := Int.lt_floor_add_one n
  have hcl : n ≤ ((⌈n⌉ : ℤ) : ℚ) := Int.le_ceil n
  have hcl2 : ((⌈n⌉ : ℤ) : ℚ) < n + 1 := Int.ceil_lt_add_one n
  have hfl0 : 0 ≤ ⌊n⌋ := Int.floor_nonneg.mpr hn
  have hcl0 : 0 ≤ ⌈n⌉ := Int.ceil_nonneg hn
  rcases hp with h | h <;> subst h
  · rcases Nat.eq_zero_or_pos (⌊n⌋).toNat with h0 | h0
    · rw [h0]
      have hz : ⌊n⌋ = 0 := by omega
      rw [hz] at hfl2
      rw [abs_le]
      constructor
      · simp only [Int.cast_zero, zero_add] at hfl2
        norm_num
        linarith
      · norm_num
        linarith
    · rw [max_eq_left h0]
      have hcast : (((⌊n⌋).toNat : ℕ) : ℚ) = ((⌊n⌋ : ℤ) : ℚ) := by
        have h2 : ((⌊n⌋).toNat : ℤ) = ⌊n⌋ := Int.toNat_of_nonneg hfl0
        exact_mod_cast congrArg (fun z : ℤ => (z : ℚ)) h2
      rw [hcast, abs_le]
      constructor <;> linarith
  · rcases Nat.eq_zero_or_pos (⌈n⌉).toNat with h0 | h0
    · rw [h0]
      have hz : ⌈n⌉ = 0 := by omega
      have hn0 : n ≤ 0 := by
        rw [hz] at hcl
        exact_mod_cast hcl
      have hn0' : n = 0 := le_antisymm hn0 hn
      rw [hn0']
      norm_num
    · rw [max_eq_left h0]
      have hcast : (((⌈n⌉).toNat : ℕ) : ℚ) = ((⌈n⌉ : ℤ) : ℚ) := by
        have h2 : ((⌈n⌉).toNat : ℤ) = ⌈n⌉ := Int.toNat_of_nonneg hcl0
        exact_mod_cast congrArg (fun z : ℤ => (z : ℚ)) h2
      rw [hcast, abs_le]
      constructor <;> linarith

/-- The width rounding picks the floor or the ceiling of the exact
width. -/
theorem roundAspectW_eq (aspect : ℚ) (y : Nat) :
    ∃ p, (p = (⌊(y : ℚ) * aspect⌋).toNat ∨ p = (⌈(y : ℚ) * aspect⌉).toNat) ∧
      roundAspectW aspect y = max p 1 := by
  refine ⟨if |aspect - (((⌊(y : ℚ) * aspect⌋).toNat : ℕ) : ℚ) / (y : ℚ)| ≤
      |aspect - (((⌈(y : ℚ) * aspect⌉).toNat : ℕ) : ℚ) / (y : ℚ)| then
      (⌊(y : ℚ) * aspect⌋).toNat else (⌈(y : ℚ) * aspect⌉).toNat, ?_, rfl⟩
  split
  · exact Or.inl rfl
  · exact Or.inr rfl

/-- The height rounding picks the floor or the ceiling of the exact
height. -/
theorem roundAspectH_eq (aspect : ℚ) (x : Nat) :
    ∃ p, (p = (⌊(x : ℚ) / aspect⌋).toNat ∨ p = (⌈(x : ℚ) / aspect⌉).toNat) ∧
      roundAspectH aspect x = max p 1 := by
  refine ⟨if (if (⌊(x : ℚ) / aspect⌋).toNat = 0 then (0 : ℚ) else
      |aspect - (x : ℚ) / (((⌊(x : ℚ) / aspect⌋).toNat : ℕ) : ℚ)|) ≤
      (if (⌈(x : ℚ) / aspect⌉).toNat = 0 then (0 : ℚ) else
      |aspect - (x : ℚ) / (((⌈(x : ℚ) / aspect⌉).toNat : ℕ) : ℚ)|) then
      (⌊(x : ℚ) / aspect⌋).toNat else (⌈(x : ℚ) / aspect⌉).toNat, ?_, rfl⟩
  by_cases hc : (if (⌊(x : ℚ) / aspect⌋).toNat = 0 then (0 : ℚ) else
      |aspect - (x : ℚ) / (((⌊(x : ℚ) / aspect⌋).toNat : ℕ) : ℚ)|) ≤
      (if (⌈(x : ℚ) / aspect⌉).toNat = 0 then (0 : ℚ) else
      |aspect - (x : ℚ) / (((⌈(x : ℚ) / aspect⌉).toNat : ℕ) : ℚ)|)
  · exact Or.inl (if_pos hc)
  · exact Or.inr (if_neg hc)

/-- Size specification of the modelled PIL thumbnail computation: the
result fits the bounding box, never exceeds the source size, is the
identity when the source already fits, and preserves the aspect ratio up
to one pixel of rounding. -/
theorem pilThumbnail_spec (w h mw mh : ℕ) (hw : 0 < w) (hh : 0 < h)
    (hmw : 0 < mw) (hmh : 0 < mh) :
    (pilThumbnail w h mw mh).1 ≤ mw ∧ (pilThumbnail w h mw mh).2 ≤ mh ∧
    (pilThumbnail w h mw mh).1 ≤ w ∧ (pilThumbnail w h mw mh).2 ≤ h ∧
    (w ≤ mw → h ≤ mh → pilThumbnail w h mw mh = (w, h)) ∧
    |((pilThumbnail w h mw mh).1 : ℚ) * (h : ℚ) - ((pilThumbnail w h mw mh).2 : ℚ) * (w : ℚ)| ≤
      ((max w h : ℕ) : ℚ) := by
  have hw0 : (0 : ℚ) < w := by exact_mod_cast hw
  have hh0 : (0 : ℚ) < h := by exact_mod_cast hh
  have hmw0 : (0 : ℚ) < mw := by exact_mod_cast hmw
  have hmh0 : (0 : ℚ) < mh := by exact_mod_cast hmh
  unfold pilThumbnail
  by_cases hfit : mw ≥ w ∧ mh ≥ h
  · rw [if_pos hfit]
    refine ⟨hfit.1, hfit.2, le_refl w, le_refl h, fun _ _ => rfl, ?_⟩
    have hzero : ((w : ℕ) : ℚ) * (h : ℚ) - ((h : ℕ) : ℚ) * (w : ℚ) = 0 := by ring
    rw [hzero, abs_zero]
    positivity
  · rw [if_neg hfit]
    have haspect_pos : (0 : ℚ) < (w : ℚ) / (h : ℚ) := div_pos hw0 hh0
    have hwh : (h : ℚ) * ((w : ℚ) / (h : ℚ)) = (w : ℚ) := by field_simp
    by_cases hbr : (mw : ℚ) / (mh : ℚ) ≥ (w : ℚ) / (h : ℚ)
    · rw [if_pos hbr]
      obtain ⟨p, hp, heq⟩ := roundAspectW_eq ((w : ℚ) / (h : ℚ)) mh
      rw [heq]
      have hn0 : 0 ≤ (mh : ℚ) * ((w : ℚ) / (h : ℚ)) := by positivity
      have hnw : (mh : ℚ) * ((w : ℚ) / (h : ℚ)) ≤ (mw : ℚ) := by
        have h5 : ((w : ℚ) / (h : ℚ)) * (mh : ℚ) ≤ (mw : ℚ) := (le_div_iff₀ hmh0).mp hbr
        linarith [h5]
      have hmh_le_h : mh ≤ h := by
        by_contra hcon
        push_neg at hcon
        apply hfit
        constructor
        · have h2 : (h : ℚ) ≤ (mh : ℚ) := by exact_mod_cast le_of_lt hcon
          have h3 : (h : ℚ) * ((w : ℚ) / (h : ℚ)) ≤ (mh : ℚ) * ((w : ℚ) / (h : ℚ)) :=
            mul_le_mul_of_nonneg_right h2 (le_of_lt haspect_pos)
          have h6 : (w : ℚ) ≤ (mw : ℚ) := by
            rw [hwh] at h3
            linarith
          exact_mod_cast h6
        · exact le_of_lt hcon
      have hnww : (mh : ℚ) * ((w : ℚ) / (h : ℚ)) ≤ (w : ℚ) := by
        have h2 : (mh : ℚ) ≤ (h : ℚ) := by exact_mod_cast hmh_le_h
        have h3 : (mh : ℚ) * ((w : ℚ) / (h : ℚ)) ≤ (h : ℚ) * ((w : ℚ) / (h : ℚ)) :=
          mul_le_mul_of_nonneg_right h2 (le_of_lt haspect_pos)
        rw [hwh] at h3
        exact h3
      refine ⟨maxRound_le hp hmw hnw, le_refl mh, maxRound_le hp hw hnww,
        hmh_le_h, fun h1 h2 => absurd ⟨h1, h2⟩ hfit, ?_⟩
      have hclose := maxRound_close hp hn0
      have hexp : ((max p 1 : ℕ) : ℚ) * (h : ℚ) - (mh : ℚ) * (w : ℚ) =
          (((max p 1 : ℕ) : ℚ) - (mh : ℚ) * ((w : ℚ) / (h : ℚ))) * (h : ℚ) := by
        field_simp
        try ring
      have hbound : |((max p 1 : ℕ) : ℚ) * (h : ℚ) - (mh : ℚ) * (w : ℚ)| ≤ (h : ℚ) := by
        rw [hexp, abs_mul, abs_of_pos hh0]
        have h7 := mul_le_mul_of_nonneg_right hclose (le_of_lt hh0)
        rw [one_mul] at h7
        exact h7
      have h8 : (h : ℚ) ≤ ((max w h : ℕ) : ℚ) := by exact_mod_cast le_max_right w h
      exact le_trans hbound h8
    · rw [if_neg hbr]
      push_neg at hbr
      obtain ⟨p, hp, heq⟩ := roundAspectH_eq ((w : ℚ) / (h : ℚ)) mw
      rw [heq]
      have hn0 : 0 ≤ (mw : ℚ) / ((w : ℚ) / (h : ℚ)) := by positivity
      have hdivh : (w : ℚ) / ((w : ℚ) / (h : ℚ)) = (h : ℚ) := by
        field_simp
      have hnh : (mw : ℚ) / ((w : ℚ) / (h : ℚ)) ≤ (mh : ℚ) := by
        rw [div_le_iff₀ haspect_pos]
        have h5 : (mw : ℚ) < ((w : ℚ) / (h : ℚ)) * (mh : ℚ) := (div_lt_iff₀ hmh0).mp hbr
        linarith
      have hmw_le_w : mw ≤ w := by
        by_contra hcon
        push_neg at hcon
        apply hfit
        constructor
        · exact le_of_lt hcon
        · have h2 : (w : ℚ) ≤ (mw : ℚ) := by exact_mod_cast le_of_lt hcon
          have h3 : (w : ℚ) / (h : ℚ) ≤ (mw : ℚ) / (h : ℚ) :=
            (div_le_div_iff_of_pos_right hh0).mpr h2
          have h4 : (mw : ℚ) / (mh : ℚ) < (mw : ℚ) / (h : ℚ) := lt_of_lt_of_le hbr h3
          have h6 : (h : ℚ) < (mh : ℚ) := by
            rw [div_lt_div_iff₀ hmh0 hh0] at h4
            have h9 : (0 : ℚ) < mw := hmw0
            nlinarith
          have h10 : h ≤ mh := by
            have := le_of_lt h6
            exact_mod_cast this
          exact h10
      have hnhh : (mw : ℚ) / ((w : ℚ) / (h : ℚ)) ≤ (h : ℚ) := by
        have h2 : (mw : ℚ) ≤ (w : ℚ) := by exact_mod_cast hmw_le_w
        have h3 : (mw : ℚ) / ((w : ℚ) / (h : ℚ)) ≤ (w : ℚ) / ((w : ℚ) / (h : ℚ)) :=
          (div_le_div_iff_of_pos_right haspect_pos).mpr h2
        rw [hdivh] at h3
        exact h3
      refine ⟨le_refl mw, maxRound_le hp hmh hnh, hmw_le_w,
        maxRound_le hp hh hnhh, fun h1 h2 => absurd ⟨h1, h2⟩ hfit, ?_⟩
      have hclose := maxRound_close hp hn0
      have hexp : ((mw : ℕ) : ℚ) * (h : ℚ) - ((max p 1 : ℕ) : ℚ) * (w : ℚ) =
          ((mw : ℚ) / ((w : ℚ) / (h : ℚ)) - ((max p 1 : ℕ) : ℚ)) * (w : ℚ) := by
        field_simp
        try ring
      have hbound : |((mw : ℕ) : ℚ) * (h : ℚ) - ((max p 1 : ℕ) : ℚ) * (w : ℚ)| ≤ (w : ℚ) := by
        rw [hexp, abs_mul, abs_of_pos hw0]
        have h7 : |(mw : ℚ) / ((w : ℚ) / (h : ℚ)) - ((max p 1 : ℕ) : ℚ)| ≤ 1 := by
          rw [abs_sub_comm]
          exact hclose
        have h8 := mul_le_mul_of_nonneg_right h7 (le_of_lt hw0)
        rw [one_mul] at h8
        exact h8
      have h9 : (w : ℚ) ≤ ((max w h : ℕ) : ℚ) := by exact_mod_cast le_max_left w h
      exact le_trans hbound h9

/-- A successful store lookup returns a member of the store. -/
theorem s3Lookup_mem (w : World) (b k : String) (d : PDFDoc)
    (h : s3Lookup w b k = some d) : ∃ t ∈ w.s3docs, t.2.2 = d := by
  unfold s3Lookup at h
  cases hf : w.s3docs.find? (fun t => t.1 == b && t.2.1 == k) with
  | none => rw [hf] at h; cases h
  | some t =>
    rw [hf] at h
    injection h with h2
    exact ⟨t, List.mem_of_find?_eq_some hf, h2⟩

/-- C8: the thumbnail published by a successful run fits the configured
bounding box, never exceeds the rendered page size, is unchanged when the
page already fits, and keeps the page aspect ratio up to one pixel of
rounding. -/
theorem thumbnail_bounds (cfg : Config) (env : Env) (w : World) (e : Event)
    (msg : String) (fid : Nat) (k : String) (w' : World) (mw mh : Nat)
    (h : lambda_handler cfg env w e = some (⟨200, Body.success msg fid k⟩, w'))
    (hdocs : ∀ t ∈ w.s3docs, 0 < t.2.2.pix0w ∧ 0 < t.2.2.pix0h)
    (hps : parseSize cfg.THUMBNAIL_SIZE = some (mw, mh))
    (hmw : 0 < mw) (hmh : 0 < mh) :
    ∃ obj srcW srcH, w'.store = obj :: w.store ∧
      obj.contentType = "image/png" ∧
      obj.width ≤ mw ∧ obj.height ≤ mh ∧
      obj.width ≤ srcW ∧ obj.height ≤ srcH ∧
      (srcW ≤ mw → srcH ≤ mh → obj.width = srcW ∧ obj.height = srcH) ∧
      |(obj.width : ℚ) * (srcH : ℚ) - (obj.height : ℚ) * (srcW : ℚ)| ≤
        ((max srcW srcH : ℕ) : ℚ) := by
  obtain ⟨-, -, -, b, dk, fs, doc, mw2, mh2, hp, hlook, -, hps2, -, hstore, -⟩ :=
    success_inversion _ _ _ _ _ _ _ _ h
  rw [hps] at hps2
  injection hps2 with hps3
  injection hps3 with hmw2 hmh2
  subst hmw2; subst hmh2
  obtain ⟨t, htmem, htd⟩ := s3Lookup_mem _ _ _ _ hlook
  obtain ⟨hpw, hph⟩ := hdocs t htmem
  rw [htd] at hpw hph
  obtain ⟨h1, h2, h3, h4, h5, h6⟩ := pilThumbnail_spec doc.pix0w doc.pix0h mw mh hpw hph hmw hmh
  refine ⟨_, doc.pix0w, doc.pix0h, hstore, rfl, h1, h2, h3, h4, ?_, h6⟩
  intro hf1 hf2
  have h7 := h5 hf1 hf2
  constructor
  · exact congrArg Prod.fst h7
  · exact congrArg Prod.snd h7

/-- Witness for C8 on a concrete successful run. -/
theorem thumbnail_bounds_witness :
    ∃ obj srcW srcH, worldAfter1.store = obj :: worldSample.store ∧
      obj.contentType = "image/png" ∧
      obj.width ≤ 200 ∧ obj.height ≤ 200 ∧
      obj.width ≤ srcW ∧ obj.height ≤ srcH ∧
      (srcW ≤ 200 → srcH ≤ 200 → obj.width = srcW ∧ obj.height = srcH) ∧
      |(obj.width : ℚ) * (srcH : ℚ) - (obj.height : ℚ) * (srcW : ℚ)| ≤
        ((max srcW srcH : ℕ) : ℚ) :=
  thumbnail_bounds cfgDefault envOK worldSample eventSample
    "Successfully processed PDF" 0 "thumbnails/Q1 2024.png" worldAfter1 200 200
    (by decide) (by decide) (by decide) (by decide) (by decide)

/-- Witness for C4 on a concrete successful run. -/
theorem metadata_only_after_publish_witness :
    worldAfter1.metadata = worldSample.metadata ∨
    ∃ item obj, worldAfter1.metadata = item :: worldSample.metadata ∧
      worldAfter1.store = obj :: worldSample.store ∧
      item.thumbnail_path = "s3://" ++ obj.bucket ++ "/" ++ obj.key :=
  metadata_only_after_publish cfgDefault envOK worldSample eventSample
    ⟨200, Body.success "Successfully processed PDF" 0 "thumbnails/Q1 2024.png"⟩
    worldAfter1 (by decide)
